import Mathlib

/-!
Shallow embedding of the storage-core orchestration layer of an embedded
document database (`src/polodb_core/db.rs`), together with models of its
collaborators (page handler, header-page utilities, B-tree page wrapper,
cursor, overflow-data wrapper, object-id generator) that are described in
the specification but whose source is not part of this repository snapshot.
Machine state is passed explicitly; fallible operations return
`Except DbErr`.
-/

namespace PoloDb

/-- Error kinds of the storage core (`DbErr` in the source / spec §7). -/
inductive DbErr where
  | ioError
  | metaPageIdError
  | collectionNotFound (name : String)
  | duplicateKey
  | pageAllocationError
  | corruptPage
deriving DecidableEq, Repr

/-- The tagged value union of the document data model (spec §3: null,
boolean, 64-bit integer, double, UTF-8 string, binary blob, object
identifier, embedded document, array).  Object identifiers are modelled
as naturals: the spec treats them as opaque 12-byte values that are
totally ordered and generated fresh by a per-process maker.  The double
payload is modelled as an opaque rational since no claim touches it. -/
inductive Value where
  | null
  | boolean (b : Bool)
  | int (i : Int)
  | double (q : Rat)
  | string (s : String)
  | binary (bs : List Nat)
  | objectId (oid : Nat)
  | document (fields : List (String × Value))
  | array (elems : List Value)

/-- `true` exactly on values of the object identifier type. -/
def Value.isObjectId : Value → Bool
  | .objectId _ => true
  | _ => false

/-- B-tree key classes.  The spec fixes ObjectId as the key type of every
tree built by the visible flow; the other classes totalize the model for
keys outside the specified domain (never reached by the claims).  Nested
document/array keys are collapsed into one class, which is outside the
spec's domain. -/
inductive BKey where
  | knull
  | kbool (b : Bool)
  | kint (i : Int)
  | kstr (s : String)
  | kbin (bs : List Nat)
  | koid (oid : Nat)
  | knested
deriving DecidableEq, Repr

/-- Key class assigned to a value when it is used as a B-tree key. -/
def Value.toKey : Value → BKey
  | .null => .knull
  | .boolean b => .kbool b
  | .int i => .kint i
  | .double _ => .knested
  | .string s => .kstr s
  | .binary bs => .kbin bs
  | .objectId oid => .koid oid
  | .document _ => .knested
  | .array _ => .knested

/-- Constructor rank, first component of the key order. -/
def BKey.rank : BKey → Nat
  | .knull => 0
  | .kbool _ => 1
  | .kint _ => 2
  | .kstr _ => 3
  | .kbin _ => 4
  | .koid _ => 5
  | .knested => 6

/-- Lexicographic order on byte lists. -/
def byteListLt : List Nat → List Nat → Bool
  | [], [] => false
  | [], _ :: _ => true
  | _ :: _, [] => false
  | a :: as, b :: bs => if a < b then true else if b < a then false else byteListLt as bs

/-- Strict total-ish order on key classes: ObjectIds compare numerically
(modelling the spec's lexicographic order on 12-byte ids); ranks order
the classes. -/
def BKey.blt : BKey → BKey → Bool
  | .kbool a, .kbool b => !a && b
  | .kint a, .kint b => a < b
  | .kstr a, .kstr b => a < b
  | .kbin a, .kbin b => byteListLt a b
  | .koid a, .koid b => a < b
  | a, b => a.rank < b.rank

/-- A document: ordered mapping from field name to value, field names
unique, insertion order preserved (spec §3). -/
structure Document where
  fields : List (String × Value)

/-- Modelled from the spec: `Document::get` returns the value bound to a
field name, if present. -/
def Document.get (d : Document) (key : String) : Option Value :=
  (d.fields.find? (fun p => p.1 == key)).map (fun p => p.2)

/-- Modelled from the spec: `Document::insert` replaces the binding when
the field name is already present, otherwise appends the new binding at
the end, preserving insertion order of the existing fields. -/
def Document.insert (d : Document) (key : String) (v : Value) : Document :=
  if d.fields.any (fun p => p.1 == key) then
    ⟨d.fields.map (fun p => if p.1 == key then (key, v) else p)⟩
  else
    ⟨d.fields ++ [(key, v)]⟩

/-- Modelled from the spec: `Document::new_without_id` builds an empty
document, with no `_id` field injected. -/
def Document.newWithoutId : Document := ⟨[]⟩

/-- The B-tree key of a document: the class of its `_id` value. -/
def Document.bkey (d : Document) : BKey :=
  match d.get "_id" with
  | some v => v.toKey
  | none => .knull

/-- The promoted (median key, new sibling page) pair returned when a
B-tree root split propagates upward (`BackwardItem` in the source). -/
structure BackwardItem where
  key : BKey
  rightPid : Nat
deriving DecidableEq, Repr

/-- Abstract content of a raw page as far as the orchestration layer
observes it: the header page carries the meta-tree root pointer
(spec §4.2); a freshly materialized B-tree root page carries a backward
item and the page id of its existing (left) child. -/
inductive PageData where
  | header (metaPid : Nat)
  | btreeRoot (item : BackwardItem) (leftPid : Nat)
  | blank
deriving DecidableEq, Repr

/-- A raw page: fixed-size block identified by its page id (spec §3). -/
structure RawPage where
  pageId : Nat
  data : PageData
deriving DecidableEq, Repr

/-- Whole-machine state of one open database context: the header page's
meta-tree root field, the page allocator (next fresh id and capacity,
modelling out-of-space), the logical content of every B-tree by root
page id, the node capacity governing root splits, the object-id maker's
counter, the journal pipeline's staged-write log, the context's list of
overflow data pages, and fault switches modelling I/O and checkpoint
failures of the underlying file. -/
structure Db where
  headerMetaPid : Nat
  nextPageId : Nat
  maxPages : Nat
  trees : List (Nat × List Document)
  nodeCap : Nat
  nextOid : Nat
  pageSize : Nat
  writeLog : List RawPage
  overflowDataPages : List Nat
  ioFault : Bool
  checkpointFault : Bool

/-- Content of the B-tree rooted at a page id; a page never written as a
tree holds the empty tree. -/
def Db.getTree (st : Db) (pid : Nat) : List Document :=
  match st.trees.find? (fun p => p.1 == pid) with
  | some p => p.2
  | none => []

/-- Replace the content of the B-tree rooted at a page id. -/
def Db.setTree (st : Db) (pid : Nat) (docs : List Document) : Db :=
  { st with trees := (pid, docs) :: st.trees.filter (fun p => p.1 != pid) }

/-- Modelled from the spec: `PageHandler::alloc_page_id` returns a fresh
page id, failing with a page-allocation error when the backing store
cannot grow (capacity `maxPages` exhausted). -/
def allocPageId (st : Db) : Except DbErr (Nat × Db) :=
  if st.nextPageId < st.maxPages then
    .ok (st.nextPageId, { st with nextPageId := st.nextPageId + 1 })
  else
    .error .pageAllocationError

/-- Modelled from the spec: `PageHandler::pipeline_read_page` returns the
current committed-or-journaled bytes of a page (read-your-writes: the
header read reflects staged header writes), failing on an I/O fault or
an out-of-range id. -/
def pipelineReadPage (st : Db) (pid : Nat) : Except DbErr (RawPage × Db) :=
  if st.ioFault then .error .ioError
  else if pid == 0 then .ok (⟨0, .header st.headerMetaPid⟩, st)
  else if pid < st.nextPageId then .ok (⟨pid, .blank⟩, st)
  else .error .ioError

/-- Modelled from the spec: `PageHandler::pipeline_write_page` stages a
page write through the journal pipeline.  Writing the header page makes
its meta-pointer field visible to subsequent reads; writing a new B-tree
root page whose left child is an existing tree makes that page a root of
the same logical content. -/
def pipelineWritePage (st : Db) (page : RawPage) : Except DbErr (Unit × Db) :=
  if st.ioFault then .error .ioError
  else
    let st1 := { st with writeLog := page :: st.writeLog }
    match page.data with
    | .header metaPid => .ok ((), { st1 with headerMetaPid := metaPid })
    | .btreeRoot _ leftPid => .ok ((), st1.setTree page.pageId (st1.getTree leftPid))
    | .blank => .ok ((), st1)

/-- `header_page_utils::get_meta_page_id`: read the meta-tree root page
id field of the header page's buffer (spec §4.2). -/
def headerPageUtilsGetMetaPageId (page : RawPage) : Nat :=
  match page.data with
  | .header metaPid => metaPid
  | _ => 0

/-- `header_page_utils::set_meta_page_id`: set the meta-tree root page id
field inside the header page's buffer (spec §4.2). -/
def headerPageUtilsSetMetaPageId (page : RawPage) (pid : Nat) : RawPage :=
  ⟨page.pageId, .header pid⟩

/-- `ObjectIdMaker::mk_object_id`, modelled from the spec's collaborator
contract: each call returns a fresh identifier no earlier call produced;
the maker is a strictly increasing counter held in the context state. -/
def mkObjectId (st : Db) : Nat × Db :=
  (st.nextOid, { st with nextOid := st.nextOid + 1 })

/-- Modelled from the spec: `PageHandler::checkpoint_journal` flushes the
journaled writes into the main file, failing on an I/O fault. -/
def checkpointJournal (st : Db) : Except DbErr (Unit × Db) :=
  if st.checkpointFault then .error .ioError
  else .ok ((), { st with writeLog := [] })

/-- Insert a document into a tree's in-order content at its key-sorted
position (spec §4.4: the leaf is located by walking the tree comparing
keys, the entry placed in sorted position). -/
def btreeSortedInsert (doc : Document) : List Document → List Document
  | [] => [doc]
  | d :: ds =>
    if BKey.blt doc.bkey d.bkey then doc :: d :: ds
    else d :: btreeSortedInsert doc ds

/-- Modelled from the spec: `BTreePageWrapper::insert_item(doc,
allow_duplicate)` inserts a document into the B-tree rooted at
`rootPid`, keyed by its `_id`.  With `allowDup = false` an insertion
whose key already exists fails with a duplicate-key error.  The tree's
internal layout is abstracted to its in-order content; the root-split
signal — a `BackwardItem` carrying the promoted median key and the page
id of the new sibling node, which the wrapper allocates through the Page
Handler — is modelled as firing when the content outgrows one node's
capacity. -/
def insertItem (st : Db) (rootPid : Nat) (doc : Document) (allowDup : Bool) :
    Except DbErr (Option BackwardItem × Db) :=
  let content := st.getTree rootPid
  if !allowDup && content.any (fun d => d.bkey == doc.bkey) then
    .error .duplicateKey
  else
    let newContent := btreeSortedInsert doc content
    let st1 := st.setTree rootPid newContent
    if newContent.length > st.nodeCap then
      match allocPageId st1 with
      | .error e => .error e
      | .ok (siblingPid, st2) =>
        let median := (newContent.getD (newContent.length / 2) doc).bkey
        .ok (some ⟨median, siblingPid⟩, st2)
    else
      .ok (none, st1)

/-- Modelled from the spec: `BackwardItem::write_to_page` materializes
the backward item as a brand-new root page with two children, the old
root as the existing left child and the promoted sibling on the right
(spec §4.4). -/
def BackwardItem.writeToPage (item : BackwardItem) (newPid : Nat) (leftPid : Nat)
    (_pageSize : Nat) : Except DbErr RawPage :=
  .ok ⟨newPid, .btreeRoot item leftPid⟩

/-- `DbContext::get_meta_page_id` (db.rs lines 77–86): read the header
page through the pipeline; the sentinel value 0 in its meta field is a
`MetaPageIdError`, any other value is the meta-tree root page id. -/
def getMetaPageId (st : Db) : Except DbErr (Nat × Db) :=
  match pipelineReadPage st 0 with
  | .error e => .error e
  | .ok (headPage, st1) =>
    let result := headerPageUtilsGetMetaPageId headPage
    if result == 0 then .error .metaPageIdError
    else .ok (result, st1)

/-- The metadata document built by `create_collection` for a collection:
fields `_id`, `name`, `root_pid`, `flags`, inserted in that order into a
document created by `Document::new_without_id` (db.rs lines 90–98). -/
def collectionMetaDoc (oid : Nat) (name : String) (rootPid : Nat) : Document :=
  ((((Document.newWithoutId).insert "_id" (.objectId oid)).insert
      "name" (.string name)).insert
      "root_pid" (.int (rootPid : Int))).insert
      "flags" (.int 0)

/-- `DbContext::create_collection`, first half (db.rs lines 89–104):
generate an object id, build the metadata document, allocate the
collection's root page, read the meta-tree root from the header page and
insert the document into the meta-tree, returning the generated id, the
meta page id and the optional backward item of a root split. -/
def createCollectionToInsert (st : Db) (name : String) :
    Except DbErr ((Nat × Nat × Option BackwardItem) × Db) :=
  let (oid, st1) := mkObjectId st
  match allocPageId st1 with
  | .error e => .error e
  | .ok (rootPid, st2) =>
    let doc := collectionMetaDoc oid name rootPid
    match getMetaPageId st2 with
    | .error e => .error e
    | .ok (metaPageId, st3) =>
      match insertItem st3 metaPageId doc false with
      | .error e => .error e
      | .ok (backward, st4) => .ok ((oid, metaPageId, backward), st4)

/-- `DbContext::create_collection`, second half (db.rs lines 106–125):
when the meta-tree insertion returned a backward item, allocate a new
root page id, materialize the backward item there with the old meta root
as its left child, update the header page's meta pointer and write both
pages through the journal pipeline; otherwise return the id directly. -/
def createCollection (st : Db) (name : String) : Except DbErr (Nat × Db) :=
  match createCollectionToInsert st name with
  | .error e => .error e
  | .ok ((oid, metaPageId, backward), st4) =>
    match backward with
    | some backwardItem =>
      match allocPageId st4 with
      | .error e => .error e
      | .ok (newRootId, st5) =>
        match backwardItem.writeToPage newRootId metaPageId st5.pageSize with
        | .error e => .error e
        | .ok rawPage =>
          match pipelineReadPage st5 0 with
          | .error e => .error e
          | .ok (headPage, st6) =>
            let headPage1 := headerPageUtilsSetMetaPageId headPage newRootId
            match pipelineWritePage st6 headPage1 with
            | .error e => .error e
            | .ok ((), st7) =>
              match pipelineWritePage st7 rawPage with
              | .error e => .error e
              | .ok ((), st8) => .ok (oid, st8)
    | none => .ok (oid, st4)

/-- The resolution loop of `DbContext::get_collection_cursor`
(db.rs lines 152–179), as structural recursion over the cursor's
remaining documents: a scanned entry with no `name` field aborts with
collection-not-found; the first entry whose `name` is the requested
string stops the scan with its `root_pid` when that is a nonnegative
integer (`tmp` stays `-1` otherwise, failing the `tmp < 0` check); an
exhausted scan fails with collection-not-found. -/
def getCollectionCursorLoop (docs : List Document) (colName : String) :
    Except DbErr Int :=
  match docs with
  | [] => .error (.collectionNotFound colName)
  | doc :: rest =>
    match doc.get "name" with
    | none => .error (.collectionNotFound colName)
    | some docName =>
      match docName with
      | .string strContent =>
        if strContent == colName then
          let tmp : Int :=
            match doc.get "root_pid" with
            | some (.int pid) => pid
            | _ => -1
          if tmp < 0 then .error (.collectionNotFound colName) else .ok tmp
        else getCollectionCursorLoop rest colName
      | _ => getCollectionCursorLoop rest colName

/-- `DbContext::get_collection_cursor` (db.rs lines 147–183): read the
meta page id, open a cursor over the meta-tree, run the resolution loop,
and open a cursor at the resolved root page id cast to a 32-bit page id. -/
def getCollectionCursor (st : Db) (colName : String) :
    Except DbErr (List Document × Db) :=
  match getMetaPageId st with
  | .error e => .error e
  | .ok (metaPageId, st1) =>
    let metaDocs := st1.getTree metaPageId
    match getCollectionCursorLoop metaDocs colName with
    | .error e => .error e
    | .ok rootPageId => .ok (st1.getTree (rootPageId.toNat % 2 ^ 32), st1)

/-- Modelled from the spec: the resolution performed inside
`Cursor::insert` — linear scan of the meta-tree for a matching `name`,
collection-not-found on no match or a malformed entry — shares the
semantics of the context's own resolution loop; on success the document
is inserted into the resolved collection tree through the B-tree
insertion path, and a root split is completed by materializing the new
root, writing it through the pipeline and storing its page id into the
owning collection-metadata entry's `root_pid` field (spec §4.4). -/
def cursorInsert (st : Db) (metaPageId : Nat) (colName : String) (doc : Document) :
    Except DbErr (Unit × Db) :=
  let metaDocs := st.getTree metaPageId
  match getCollectionCursorLoop metaDocs colName with
  | .error e => .error e
  | .ok rootPageId =>
    let rootPid := rootPageId.toNat % 2 ^ 32
    match insertItem st rootPid doc false with
    | .error e => .error e
    | .ok (none, st1) => .ok ((), st1)
    | .ok (some backwardItem, st1) =>
      match allocPageId st1 with
      | .error e => .error e
      | .ok (newRootId, st2) =>
        match backwardItem.writeToPage newRootId rootPid st2.pageSize with
        | .error e => .error e
        | .ok rawPage =>
          match pipelineWritePage st2 rawPage with
          | .error e => .error e
          | .ok ((), st3) =>
            let newMeta := st3.getTree metaPageId |>.map (fun d =>
              match d.get "name" with
              | some (.string s) =>
                if s == colName then d.insert "root_pid" (.int (newRootId : Int)) else d
              | _ => d)
            .ok ((), st3.setTree metaPageId newMeta)

/-- The `_id`-preparation block of `DbContext::insert` (db.rs lines
132–142), as the pure document transformation it performs: a document
that already has an `_id` passes through unchanged; otherwise a fresh
object id is generated and injected. -/
def insertPrepare (st : Db) (doc : Document) : Document × Db :=
  match doc.get "_id" with
  | some _ => (doc, st)
  | none =>
    let (oid, st') := mkObjectId st
    (doc.insert "_id" (.objectId oid), st')

/-- `DbContext::insert` (db.rs lines 128–145): read the meta page id,
open a cursor over the meta-tree, inject a fresh `_id` when the document
has none, and insert through the cursor's insertion path. -/
def insertDoc (st : Db) (colName : String) (doc : Document) :
    Except DbErr (Unit × Db) :=
  match getMetaPageId st with
  | .error e => .error e
  | .ok (metaPageId, st1) =>
    let (doc1, st2) := insertPrepare st1 doc
    cursorInsert st2 metaPageId colName doc1

/-- `DbContext::query_all_meta` (db.rs lines 185–198): read the meta page
id and collect every document the meta-tree cursor yields, in order. -/
def queryAllMeta (st : Db) : Except DbErr (List Document × Db) :=
  match getMetaPageId st with
  | .error e => .error e
  | .ok (metaPageId, st1) => .ok (st1.getTree metaPageId, st1)

/-- A fragment chain of overflow pages reserved for one payload:
the pages it spans and the byte capacity they reserve (spec §4.3, §3:
the wrapper manages a chain of pages; the ticket references the chain). -/
structure OverflowItem where
  pages : List Nat
  capacity : Nat
deriving DecidableEq, Repr

/-- `OverflowDataTicket`: the ordered fragment list describing where the
overflow storage for one logical payload is reserved. -/
structure OverflowDataTicket where
  items : List OverflowItem
deriving DecidableEq, Repr

/-- Total capacity a ticket's fragment list describes. -/
def OverflowDataTicket.capacity (t : OverflowDataTicket) : Nat :=
  (t.items.map OverflowItem.capacity).foldr (· + ·) 0

/-- Usable overflow payload bytes per page; the abstraction equates it
with the page size, no claim depending on the exact in-page overhead. -/
def overflowPageCapacity (st : Db) : Nat := st.pageSize

/-- Number of overflow pages a payload of `size` bytes requires: at
least the one page the context hands the wrapper, and enough pages in
the chain overall to cover `size` bytes (spec §4.3). -/
def overflowPagesNeeded (cap size : Nat) : Nat :=
  max 1 ((size + cap - 1) / cap)

/-- Allocate `n` fresh page ids in sequence through the Page Handler. -/
def allocPages (st : Db) : Nat → Except DbErr (List Nat × Db)
  | 0 => .ok ([], st)
  | n + 1 =>
    match allocPageId st with
    | .error e => .error e
    | .ok (pid, st1) =>
      match allocPages st1 n with
      | .error e => .error e
      | .ok (pids, st2) => .ok (pid :: pids, st2)

/-- Modelled from the spec: `OverflowDataWrapper::alloc(size)` claims
sufficient page capacity for `size` bytes, starting from the page whose
raw buffer the wrapper was built over and allocating as many further
overflow pages as needed through the Page Handler; it returns a fragment
chain fully describing the reserved capacity and fails with an
allocation error when the Page Handler cannot supply pages. -/
def overflowAlloc (st : Db) (firstPage : Nat) (size : Nat) :
    Except DbErr (OverflowItem × Db) :=
  let needed := overflowPagesNeeded (overflowPageCapacity st) size
  match allocPages st (needed - 1) with
  | .error e => .error e
  | .ok (extraPages, st1) =>
    .ok (⟨firstPage :: extraPages, needed * overflowPageCapacity st⟩, st1)

/-- `DbContext::alloc_overflow_ticker` (db.rs lines 60–74): allocate one
page, record it in the context's overflow-page list, read it back
through the pipeline, build the overflow wrapper over it, allocate
`size` bytes and wrap the returned fragment chain as a one-item ticket. -/
def allocOverflowTicker (st : Db) (size : Nat) :
    Except DbErr (OverflowDataTicket × Db) :=
  match allocPageId st with
  | .error e => .error e
  | .ok (pageId, st1) =>
    let st2 := { st1 with overflowDataPages := st1.overflowDataPages ++ [pageId] }
    match pipelineReadPage st2 pageId with
    | .error e => .error e
    | .ok (_rawPage, st3) =>
      match overflowAlloc st3 pageId size with
      | .error e => .error e
      | .ok (ticket, st4) => .ok (⟨[ticket]⟩, st4)

/-- `impl Drop for DbContext` (db.rs lines 202–208): checkpoint the
journal at teardown and discard the result — the drop glue is total and
surfaces no error whether or not the checkpoint failed. -/
def dropCtx (st : Db) : Db :=
  match checkpointJournal st with
  | .ok (_, st') => st'
  | .error _ => st

/-- A heap of reference-counted document cells: each cell holds a
document value and its strong reference count.  Models the sharing of
`Rc<Document>` between the caller of `insert` and the context. -/
structure RcHeap where
  cells : List (Document × Nat)

/-- The document value held by cell `r`. -/
def RcHeap.valueAt (h : RcHeap) (r : Nat) : Document :=
  ((h.cells.getD r (Document.newWithoutId, 0))).1

/-- The strong reference count of cell `r`. -/
def RcHeap.countAt (h : RcHeap) (r : Nat) : Nat :=
  ((h.cells.getD r (Document.newWithoutId, 0))).2

/-- Overwrite the document value held by cell `r`. -/
def RcHeap.setValue (h : RcHeap) (r : Nat) (d : Document) : RcHeap :=
  ⟨h.cells.set r (d, h.countAt r)⟩

/-- Modelled from Rust's documented `Rc::make_mut` copy-on-write
semantics: when the cell is shared (count above one) the value is cloned
into a fresh uniquely-owned cell, the handle now pointing there and the
original cell keeping one fewer reference; when uniquely owned, the cell
itself is handed out for in-place mutation. -/
def rcMakeMut (h : RcHeap) (r : Nat) : Nat × RcHeap :=
  if h.countAt r > 1 then
    let fresh := h.cells.length
    let h1 : RcHeap :=
      ⟨h.cells.set r (h.valueAt r, h.countAt r - 1) ++ [(h.valueAt r, 1)]⟩
    (fresh, h1)
  else (r, h)

/-- The `_id`-preparation block of `DbContext::insert` (db.rs lines
132–142) at the `Rc` level: `doc.get("_id")` on the shared document;
when absent, `Rc::make_mut` obtains a mutable document — cloning iff the
`Rc` is shared — and the fresh `_id` is inserted into it; when present,
the handle passes through with no heap mutation at all. -/
def insertPrepareRc (h : RcHeap) (r : Nat) (oid : Nat) : Nat × RcHeap :=
  match (h.valueAt r).get "_id" with
  | some _ => (r, h)
  | none =>
    let (r1, h1) := rcMakeMut h r
    (r1, h1.setValue r1 ((h1.valueAt r1).insert "_id" (.objectId oid)))

/-! ### Helper lemmas about the data model and state primitives -/

theorem find?_map_replace (ps : List (String × Value)) (k : String) (v : Value)
    (h : ps.any (fun p => p.1 == k) = true) :
    (ps.map (fun p => if p.1 == k then (k, v) else p)).find? (fun p => p.1 == k)
      = some (k, v) := by
  induction ps with
  | nil => simp at h
  | cons p ps ih =>
    cases hp : (p.1 == k) with
    | true =>
      have : (fun q => q.1 == k) (if (p.1 == k) = true then (k, v) else p) = true := by
        simp [hp]
      simp only [List.map_cons, hp]
      rw [List.find?_cons_of_pos _ (by simp)]
      simp
    | false =>
      simp only [List.any_cons, hp, Bool.false_or] at h
      simp only [List.map_cons, hp, Bool.false_eq_true, if_false]
      rw [List.find?_cons_of_neg _ (by simp [hp]), ih h]

theorem find?_append_single (ps : List (String × Value)) (k : String) (v : Value)
    (h : ps.any (fun p => p.1 == k) = false) :
    (ps ++ [(k, v)]).find? (fun p => p.1 == k) = some (k, v) := by
  induction ps with
  | nil => simp [List.find?_cons_of_pos]
  | cons p ps ih =>
    simp only [List.any_cons, Bool.or_eq_false_iff] at h
    simp only [List.cons_append]
    rw [List.find?_cons_of_neg _ (by simp [h.1]), ih h.2]

theorem Document.get_insert_self (d : Document) (k : String) (v : Value) :
    (d.insert k v).get k = some v := by
  unfold Document.insert Document.get
  cases hk : d.fields.any (fun p => p.1 == k) with
  | true =>
    simp only [hk, if_true, find?_map_replace d.fields k v hk]
    rfl
  | false =>
    simp only [hk, Bool.false_eq_true, if_false, find?_append_single d.fields k v hk]
    rfl

theorem Db.getTree_setTree_self (st : Db) (pid : Nat) (docs : List Document) :
    (st.setTree pid docs).getTree pid = docs := by
  simp [Db.setTree, Db.getTree, List.find?]

theorem find?_filter_ne {α : Type} (l : List (Nat × α)) (pid pid' : Nat)
    (h : pid' ≠ pid) :
    (l.filter (fun p => p.1 != pid)).find? (fun p => p.1 == pid') =
      l.find? (fun p => p.1 == pid') := by
  induction l with
  | nil => simp
  | cons q qs ih =>
    by_cases hq : q.1 = pid
    · have h1 : (q.1 != pid) = false := by simp [hq]
      have h2 : (q.1 == pid') = false := by simp [hq, Ne.symm h]
      rw [List.filter_cons_of_neg (by simp [h1]), ih,
        List.find?_cons_of_neg _ (by simp [h2])]
    · have h1 : (q.1 != pid) = true := by simp [hq]
      by_cases hq' : q.1 = pid'
      · rw [List.filter_cons_of_pos (by simp [h1]),
          List.find?_cons_of_pos _ (by simp [hq']),
          List.find?_cons_of_pos _ (by simp [hq'])]
      · have h2 : (q.1 == pid') = false := by simp [hq']
        rw [List.filter_cons_of_pos (by simp [h1]),
          List.find?_cons_of_neg _ (by simp [h2]),
          List.find?_cons_of_neg _ (by simp [h2]), ih]

theorem Db.getTree_setTree_ne (st : Db) (pid pid' : Nat) (docs : List Document)
    (h : pid' ≠ pid) :
    (st.setTree pid docs).getTree pid' = st.getTree pid' := by
  have h2 : (pid == pid') = false := by simp [Ne.symm h]
  simp only [Db.setTree, Db.getTree, List.find?, h2]
  rw [find?_filter_ne st.trees pid pid' h]

theorem mem_btreeSortedInsert (d d' : Document) (docs : List Document) :
    d' ∈ btreeSortedInsert d docs ↔ d' = d ∨ d' ∈ docs := by
  induction docs with
  | nil => simp [btreeSortedInsert]
  | cons x xs ih =>
    cases hlt : BKey.blt d.bkey x.bkey with
    | true => simp [btreeSortedInsert, hlt]
    | false =>
      simp only [btreeSortedInsert, hlt, Bool.false_eq_true, if_false, List.mem_cons, ih]
      tauto

/-! ### Concrete states used by witnesses and counterexamples -/

/-- A well-formed freshly opened database state: the header page (page 0)
and the meta-tree root page (page 1) exist, the meta-tree is empty, and
no fault is injected. -/
def baseDb : Db :=
  { headerMetaPid := 1
    nextPageId := 2
    maxPages := 100
    trees := []
    nodeCap := 10
    nextOid := 0
    pageSize := 4096
    writeLog := []
    overflowDataPages := []
    ioFault := false
    checkpointFault := false }

/-! ### C7: the meta-page-id sentinel -/

/-- C7: for every operation that needs the meta-tree root
(create_collection, insert, query_all_meta, collection resolution), a
sentinel value 0 stored in the header page's meta field fails the
operation with `MetaPageIdError`, and a nonzero stored value is returned
by `get_meta_page_id` as the meta-tree root page id. -/
theorem meta_sentinel_guard (st : Db) (name col : String) (doc : Document)
    (hio : st.ioFault = false) :
    (st.headerMetaPid ≠ 0 → getMetaPageId st = .ok (st.headerMetaPid, st)) ∧
    (st.headerMetaPid = 0 →
      getMetaPageId st = .error .metaPageIdError ∧
      (st.nextPageId < st.maxPages →
        createCollection st name = .error .metaPageIdError) ∧
      insertDoc st col doc = .error .metaPageIdError ∧
      queryAllMeta st = .error .metaPageIdError ∧
      getCollectionCursor st col = .error .metaPageIdError) := by
  have hread : pipelineReadPage st 0 = .ok (⟨0, .header st.headerMetaPid⟩, st) := by
    simp [pipelineReadPage, hio]
  constructor
  · intro hne
    simp [getMetaPageId, hread, headerPageUtilsGetMetaPageId, hne]
  · intro h0
    have hmeta : getMetaPageId st = .error .metaPageIdError := by
      simp [getMetaPageId, hread, headerPageUtilsGetMetaPageId, h0]
    refine ⟨hmeta, ?_, ?_, ?_, ?_⟩
    · intro halloc
      have halloc' : allocPageId { st with nextOid := st.nextOid + 1 } =
          .ok (st.nextPageId,
            { st with nextOid := st.nextOid + 1, nextPageId := st.nextPageId + 1 }) := by
        simp [allocPageId, halloc]
      have hmeta2 :
          getMetaPageId { st with nextOid := st.nextOid + 1, nextPageId := st.nextPageId + 1 }
            = .error .metaPageIdError := by
        simp [getMetaPageId, pipelineReadPage, hio, headerPageUtilsGetMetaPageId, h0]
      simp [createCollection, createCollectionToInsert, mkObjectId, halloc', hmeta2]
    · simp [insertDoc, hmeta]
    · simp [queryAllMeta, hmeta]
    · simp [getCollectionCursor, hmeta]

/-- Witness for C7 at a concrete state: the nonzero branch on `baseDb`
and the sentinel branch on `baseDb` with a zeroed header field. -/
theorem meta_sentinel_guard_witness :
    getMetaPageId baseDb = .ok (baseDb.headerMetaPid, baseDb) ∧
    createCollection { baseDb with headerMetaPid := 0 } "test"
      = .error .metaPageIdError := by
  constructor
  · exact (meta_sentinel_guard baseDb "test" "test" ⟨[]⟩ rfl).1 (by decide)
  · exact ((meta_sentinel_guard { baseDb with headerMetaPid := 0 } "test" "test"
      ⟨[]⟩ rfl).2 rfl).2.1 (by decide)

/-! ### C2: collection-name resolution -/

/-- The failure condition asserted by the claim for collection-name
resolution, written from the spec's words: resolution fails if and only
if no metadata entry has a `name` field equal to the requested name, or
a scanned metadata entry is missing its `name` field or its `root_pid`
field. -/
def claimedResolveFailCond (docs : List Document) (colName : String) : Bool :=
  !(docs.any (fun d =>
      match d.get "name" with
      | some (.string s) => s == colName
      | _ => false))
  || docs.any (fun d => (d.get "name").isNone || (d.get "root_pid").isNone)

/-- A two-entry meta-tree: the first entry (collection "a") has no
`root_pid` field; the second is a well-formed entry for collection "b". -/
def crookedMeta : List Document :=
  [⟨[("name", .string "a")]⟩,
   ⟨[("name", .string "b"), ("root_pid", .int 5)]⟩]

/-- Counterexample to C2: resolving "b" against `crookedMeta` scans an
entry that is missing its `root_pid` field — so the claimed condition
says the resolution must fail — yet the code succeeds and returns 5,
refuting the claimed "if and only if". -/
theorem resolve_fail_iff_counterexample :
    claimedResolveFailCond crookedMeta "b" = true ∧
    getCollectionCursorLoop crookedMeta "b" = .ok 5 := by
  constructor
  · rfl
  · rfl

/-- The amended resolution contract, as a function of the spec's
(corrected) words: the scan stops at the first entry that is missing its
`name` field or whose `name` is the requested string; resolution fails
with `CollectionNotFound(name)` if and only if there is no such entry,
the stopping entry is missing its `name` field, or the stopping entry's
`root_pid` is missing, non-integer or negative; otherwise it returns the
stopping entry's `root_pid`. -/
def resolveAmendedContract (docs : List Document) (colName : String) :
    Except DbErr Int :=
  match docs.find? (fun d =>
      (d.get "name").isNone ||
      (match d.get "name" with
       | some (.string s) => s == colName
       | _ => false)) with
  | none => .error (.collectionNotFound colName)
  | some d =>
    if (d.get "name").isNone then .error (.collectionNotFound colName)
    else
      match d.get "root_pid" with
      | some (.int pid) =>
        if pid < 0 then .error (.collectionNotFound colName) else .ok pid
      | _ => .error (.collectionNotFound colName)

/-- C2 (amended): the resolution loop of `get_collection_cursor` agrees
with the amended contract on every meta-tree content and collection
name: it fails with `CollectionNotFound(name)` exactly when the scan
reaches an entry missing its `name` field, finds no entry whose `name`
equals the requested name, or the first matching entry's `root_pid` is
missing, non-integer or negative; on success it returns the first
matching entry's `root_pid`. -/
theorem resolve_matches_amended_contract (docs : List Document) (colName : String) :
    getCollectionCursorLoop docs colName = resolveAmendedContract docs colName := by
  induction docs with
  | nil => rfl
  | cons d rest ih =>
    unfold getCollectionCursorLoop resolveAmendedContract
    cases hname : d.get "name" with
    | none =>
      rw [List.find?_cons_of_pos _ (by simp [hname])]
      simp [hname]
    | some v =>
      cases v with
      | string s =>
        cases hs : (s == colName) with
        | true =>
          rw [List.find?_cons_of_pos _ (by simp [hname, hs])]
          simp only [hname, hs, if_true, Option.isNone_some, Bool.false_eq_true, if_false]
          cases hpid : d.get "root_pid" with
          | none => simp
          | some pv => cases pv <;> simp
        | false =>
          rw [List.find?_cons_of_neg _ (by simp [hname, hs])]
          simp only [hname, hs, Bool.false_eq_true, if_false]
          rw [ih]
          rfl
      | null =>
        rw [List.find?_cons_of_neg _ (by simp [hname])]
        rw [ih]; rfl
      | boolean b =>
        rw [List.find?_cons_of_neg _ (by simp [hname])]
        rw [ih]; rfl
      | int i =>
        rw [List.find?_cons_of_neg _ (by simp [hname])]
        rw [ih]; rfl
      | double q =>
        rw [List.find?_cons_of_neg _ (by simp [hname])]
        rw [ih]; rfl
      | binary bs =>
        rw [List.find?_cons_of_neg _ (by simp [hname])]
        rw [ih]; rfl
      | objectId oid =>
        rw [List.find?_cons_of_neg _ (by simp [hname])]
        rw [ih]; rfl
      | document fs =>
        rw [List.find?_cons_of_neg _ (by simp [hname])]
        rw [ih]; rfl
      | array es =>
        rw [List.find?_cons_of_neg _ (by simp [hname])]
        rw [ih]; rfl

/-! ### C10: insert never mutates a caller-visible document -/

/-- C10: the `_id`-preparation of `insert` never mutates a document the
caller can still observe: with an `_id` already present nothing is
touched at all; with `_id` absent and the `Rc` shared (count above one),
`Rc::make_mut` injects the `_id` into a copy-on-write clone held in a
fresh cell, the original cell's document staying unchanged. -/
theorem insert_rc_copy_on_write (h : RcHeap) (r oid : Nat) :
    (∀ v, (h.valueAt r).get "_id" = some v → insertPrepareRc h r oid = (r, h)) ∧
    ((h.valueAt r).get "_id" = none → 1 < h.countAt r →
      (insertPrepareRc h r oid).1 ≠ r ∧
      (insertPrepareRc h r oid).2.valueAt r = h.valueAt r ∧
      (insertPrepareRc h r oid).2.valueAt (insertPrepareRc h r oid).1
        = (h.valueAt r).insert "_id" (.objectId oid)) := by
  constructor
  · intro v hv
    simp [insertPrepareRc, hv]
  · intro hnone hcount
    have hvdef : ∀ (g : RcHeap) (i : Nat),
        g.valueAt i = (g.cells[i]?.getD (Document.newWithoutId, 0)).1 := by
      intro g i
      simp [RcHeap.valueAt, List.getD_eq_getElem?_getD]
    have hcdef : ∀ (g : RcHeap) (i : Nat),
        g.countAt i = (g.cells[i]?.getD (Document.newWithoutId, 0)).2 := by
      intro g i
      simp [RcHeap.countAt, List.getD_eq_getElem?_getD]
    have hr : r < h.cells.length := by
      by_contra hge
      push_neg at hge
      have hnoneElem : h.cells[r]? = none := List.getElem?_eq_none hge
      rw [hcdef, hnoneElem] at hcount
      simp at hcount
    set V := h.valueAt r with hV
    set C := h.countAt r with hC
    set L1 : List (Document × Nat) := h.cells.set r (V, C - 1) ++ [(V, 1)] with hL1
    have hmm : rcMakeMut h r = (h.cells.length, ⟨L1⟩) := by
      rw [rcMakeMut, if_pos hcount]
    have hlen1 : (h.cells.set r (V, C - 1)).length = h.cells.length :=
      List.length_set h.cells r _
    have hLlen : L1.length = h.cells.length + 1 := by
      rw [hL1, List.length_append, hlen1]
      rfl
    have hmidv : RcHeap.valueAt ⟨L1⟩ h.cells.length = V := by
      rw [hvdef]
      show ((h.cells.set r (V, C - 1) ++ [(V, 1)])[h.cells.length]?.getD
        (Document.newWithoutId, 0)).1 = V
      rw [show h.cells.length = (h.cells.set r (V, C - 1)).length from hlen1.symm,
        List.getElem?_concat_length]
      rfl
    have hmidc : RcHeap.countAt ⟨L1⟩ h.cells.length = 1 := by
      rw [hcdef]
      show ((h.cells.set r (V, C - 1) ++ [(V, 1)])[h.cells.length]?.getD
        (Document.newWithoutId, 0)).2 = 1
      rw [show h.cells.length = (h.cells.set r (V, C - 1)).length from hlen1.symm,
        List.getElem?_concat_length]
      rfl
    have hrun : insertPrepareRc h r oid =
        (h.cells.length, ⟨L1.set h.cells.length (V.insert "_id" (.objectId oid), 1)⟩) := by
      show (match (h.valueAt r).get "_id" with
        | some _ => (r, h)
        | none =>
          let p := rcMakeMut h r
          (p.1, p.2.setValue p.1 ((p.2.valueAt p.1).insert "_id" (.objectId oid))))
        = (h.cells.length, ⟨L1.set h.cells.length (V.insert "_id" (.objectId oid), 1)⟩)
      rw [← hV, hnone, hmm]
      show (h.cells.length, RcHeap.setValue ⟨L1⟩ h.cells.length
        ((RcHeap.valueAt ⟨L1⟩ h.cells.length).insert "_id" (.objectId oid)))
        = (h.cells.length, ⟨L1.set h.cells.length (V.insert "_id" (.objectId oid), 1)⟩)
      rw [hmidv, RcHeap.setValue, hmidc]
    refine ⟨?_, ?_, ?_⟩
    · rw [hrun]
      exact fun hEq => absurd hEq.symm (Nat.ne_of_lt hr)
    · rw [hrun, hvdef]
      show ((L1.set h.cells.length (V.insert "_id" (.objectId oid), 1))[r]?.getD
        (Document.newWithoutId, 0)).1 = V
      rw [List.getElem?_set_ne (Nat.ne_of_gt hr), hL1,
        List.getElem?_append_left (by omega),
        List.getElem?_set_self hr]
      rfl
    · rw [hrun, hvdef]
      show ((L1.set h.cells.length (V.insert "_id" (.objectId oid), 1))[h.cells.length]?.getD
        (Document.newWithoutId, 0)).1 = V.insert "_id" (.objectId oid)
      rw [List.getElem?_set_self (by omega)]
      rfl

/-- A one-cell heap whose document has no `_id` and whose cell is shared
by two `Rc` handles. -/
def sharedHeap : RcHeap := ⟨[(⟨[("x", .int 1)]⟩, 2)]⟩

/-- Witness for C10 on a shared cell: the clone receives the `_id`, the
original cell's document is untouched. -/
theorem insert_rc_copy_on_write_witness :
    (insertPrepareRc sharedHeap 0 9).1 ≠ 0 ∧
    (insertPrepareRc sharedHeap 0 9).2.valueAt 0 = sharedHeap.valueAt 0 ∧
    (insertPrepareRc sharedHeap 0 9).2.valueAt (insertPrepareRc sharedHeap 0 9).1
      = (sharedHeap.valueAt 0).insert "_id" (.objectId 9) :=
  (insert_rc_copy_on_write sharedHeap 0 9).2 rfl (by decide)

/-! ### C8: the `_id` type of persisted documents -/

/-- A database whose meta-tree (root page 1) holds one collection named
"test" whose tree is rooted at page 7. -/
def colDb : Db :=
  { baseDb with trees := [(1, [collectionMetaDoc 50 "test" 7])], nextOid := 60 }

/-- Field lists of the documents in the tree rooted at `rootPid` after a
successful `insert`. -/
def persistedFieldsAt (st : Db) (col : String) (doc : Document) (rootPid : Nat) :
    List (List (String × Value)) :=
  match insertDoc st col doc with
  | .ok (_, st1) => (st1.getTree rootPid).map Document.fields
  | .error _ => []

/-- Counterexample to C8: inserting a document whose caller-supplied
`_id` is the integer 42 persists it unchanged, so the collection tree
holds a document whose `_id` is not of the object identifier type. -/
theorem insert_id_type_counterexample :
    persistedFieldsAt colDb "test" ⟨[("_id", .int 42)]⟩ 7 = [[("_id", .int 42)]] ∧
    Value.isObjectId (.int 42) = false :=
  ⟨rfl, rfl⟩

/-- C8 (amended): every document handed to the persistence path by
`insert` carries an `_id` field; when `insert` auto-generates it the
value is an ObjectId, while a caller-supplied `_id` is preserved
exactly, whatever its value type. -/
theorem insert_id_always_present (st : Db) (col : String) (doc : Document)
    (st1 : Db) (h : insertDoc st col doc = .ok ((), st1)) :
    ((insertPrepare st doc).1.get "_id").isSome = true ∧
    (doc.get "_id" = none →
      (insertPrepare st doc).1.get "_id" = some (.objectId st.nextOid)) ∧
    (∀ v, doc.get "_id" = some v →
      (insertPrepare st doc).1 = doc ∧ (insertPrepare st doc).1.get "_id" = some v) := by
  cases hid : doc.get "_id" with
  | none =>
    have hp : (insertPrepare st doc).1 = doc.insert "_id" (.objectId st.nextOid) := by
      simp [insertPrepare, hid, mkObjectId]
    rw [hp]
    refine ⟨by rw [Document.get_insert_self]; rfl,
      fun _ => Document.get_insert_self doc "_id" _, fun v hv => absurd hv (by simp [hid])⟩
  | some v =>
    have hp : (insertPrepare st doc).1 = doc := by simp [insertPrepare, hid]
    rw [hp]
    exact ⟨by rw [hid]; rfl, fun hn => by simp at hn,
      fun w hw => ⟨rfl, hid.trans hw⟩⟩

/-- The state after the witness insertion into `colDb`. -/
def colDbAfterInsert : Db :=
  match insertDoc colDb "test" ⟨[("content", .string "x")]⟩ with
  | .ok (_, st1) => st1
  | .error _ => colDb

/-- Witness for C8 (amended) at a concrete insertion without `_id`: the
persisted document's `_id` is the freshly generated ObjectId. -/
theorem insert_id_always_present_witness :
    insertDoc colDb "test" ⟨[("content", .string "x")]⟩ = .ok ((), colDbAfterInsert) ∧
    (insertPrepare colDb ⟨[("content", .string "x")]⟩).1.get "_id"
      = some (.objectId colDb.nextOid) :=
  ⟨rfl,
    (insert_id_always_present colDb "test" ⟨[("content", .string "x")]⟩
      colDbAfterInsert rfl).2.1 rfl⟩

/-! ### C5: storage failures propagate; teardown checkpoint is swallowed -/

/-- C5: with an I/O fault injected in the page pipeline, every visible
operation (create_collection, insert, query_all_meta, collection
resolution) surfaces the fault as a typed `DbResult` error rather than
discarding it, while the checkpoint run by the context's drop glue at
teardown swallows its own failure, leaving the state unchanged and
raising nothing. -/
theorem storage_failures_propagate (st : Db) (name col : String) (doc : Document)
    (hio : st.ioFault = true) (halloc : st.nextPageId < st.maxPages) :
    createCollection st name = .error .ioError ∧
    insertDoc st col doc = .error .ioError ∧
    queryAllMeta st = .error .ioError ∧
    getCollectionCursor st col = .error .ioError ∧
    (∀ st' : Db, st'.checkpointFault = true →
      checkpointJournal st' = .error .ioError ∧ dropCtx st' = st') := by
  have hmeta : getMetaPageId st = .error .ioError := by
    simp [getMetaPageId, pipelineReadPage, hio]
  refine ⟨?_, ?_, ?_, ?_, ?_⟩
  · have halloc' : allocPageId { st with nextOid := st.nextOid + 1 } =
        .ok (st.nextPageId,
          { st with nextOid := st.nextOid + 1, nextPageId := st.nextPageId + 1 }) := by
      simp [allocPageId, halloc]
    have hmeta2 :
        getMetaPageId { st with nextOid := st.nextOid + 1, nextPageId := st.nextPageId + 1 }
          = .error .ioError := by
      simp [getMetaPageId, pipelineReadPage, hio]
    simp [createCollection, createCollectionToInsert, mkObjectId, halloc', hmeta2]
  · simp [insertDoc, hmeta]
  · simp [queryAllMeta, hmeta]
  · simp [getCollectionCursor, hmeta]
  · intro st' hcf
    constructor
    · simp [checkpointJournal, hcf]
    · simp [dropCtx, checkpointJournal, hcf]

/-- Witness for C5: the fault surfaces from `create_collection` on a
concrete faulty state, and the drop glue swallows a failing checkpoint. -/
theorem storage_failures_propagate_witness :
    createCollection { baseDb with ioFault := true } "test" = .error .ioError ∧
    dropCtx { baseDb with checkpointFault := true }
      = { baseDb with checkpointFault := true } :=
  ⟨(storage_failures_propagate { baseDb with ioFault := true } "test" "test" ⟨[]⟩
      rfl (by decide)).1,
    ((storage_failures_propagate { baseDb with ioFault := true } "test" "test" ⟨[]⟩
      rfl (by decide)).2.2.2.2 { baseDb with checkpointFault := true } rfl).2⟩

/-! ### C6: overflow allocation -/

theorem allocPages_ok (n : Nat) : ∀ (st : Db), st.nextPageId + n ≤ st.maxPages →
    ∃ pids, allocPages st n = .ok (pids, { st with nextPageId := st.nextPageId + n }) := by
  induction n with
  | zero => exact fun st _ => ⟨[], rfl⟩
  | succ m ih =>
    intro st h
    have hlt : st.nextPageId < st.maxPages := by omega
    have ha : allocPageId st =
        .ok (st.nextPageId, { st with nextPageId := st.nextPageId + 1 }) := by
      simp [allocPageId, hlt]
    obtain ⟨pids, hps⟩ := ih { st with nextPageId := st.nextPageId + 1 } (by simp; omega)
    refine ⟨st.nextPageId :: pids, ?_⟩
    have hadd : st.nextPageId + 1 + m = st.nextPageId + (m + 1) := by omega
    rw [hadd] at hps
    simp only [allocPages, ha, hps]

theorem allocPages_err (n : Nat) : ∀ (st : Db), 1 ≤ n →
    st.maxPages < st.nextPageId + n →
    allocPages st n = .error .pageAllocationError := by
  induction n with
  | zero => intro st h1 _; omega
  | succ m ih =>
    intro st _ hover
    by_cases hlt : st.nextPageId < st.maxPages
    · have ha : allocPageId st =
          .ok (st.nextPageId, { st with nextPageId := st.nextPageId + 1 }) := by
        simp [allocPageId, hlt]
      have hm : 1 ≤ m := by omega
      have hrec := ih { st with nextPageId := st.nextPageId + 1 } hm (by simp; omega)
      simp only [allocPages, ha, hrec]
    · have ha : allocPageId st = .error .pageAllocationError := by
        simp [allocPageId, hlt]
      simp only [allocPages, ha]

theorem size_le_pages_mul (cap size : Nat) (hc : 0 < cap) :
    size ≤ overflowPagesNeeded cap size * cap := by
  unfold overflowPagesNeeded
  have h1 := Nat.div_add_mod (size + cap - 1) cap
  have h2 : (size + cap - 1) % cap < cap := Nat.mod_lt _ hc
  set q := (size + cap - 1) / cap with hq
  have h3 : max 1 q * cap = max 1 q * cap := rfl
  rcases Nat.le_total q 1 with hle | hge
  · have hmax : max 1 q = 1 := by omega
    rw [hmax, Nat.one_mul]
    -- q ≤ 1 forces the payload to fit in one page
    have h4 : cap * q ≤ cap * 1 := Nat.mul_le_mul_left cap hle
    omega
  · have hmax : max 1 q = q := by omega
    rw [hmax]
    have h5 : q * cap = cap * q := Nat.mul_comm q cap
    omega

theorem one_le_overflowPagesNeeded (cap size : Nat) :
    1 ≤ overflowPagesNeeded cap size := le_max_left 1 _

/-- C6: for every requested size, `alloc_overflow_ticker` returns a
ticket whose fragment list describes reserved capacity of at least
`size` bytes, having allocated exactly as many overflow pages through
the Page Handler as the size requires, and fails with a page-allocation
error exactly when the Page Handler cannot supply that many pages. -/
theorem alloc_overflow_ticket_spec (st : Db) (size : Nat)
    (hio : st.ioFault = false) (hps : 0 < st.pageSize) :
    (st.nextPageId + overflowPagesNeeded st.pageSize size ≤ st.maxPages →
      ∃ t st', allocOverflowTicker st size = .ok (t, st') ∧
        size ≤ t.capacity ∧
        st'.nextPageId = st.nextPageId + overflowPagesNeeded st.pageSize size) ∧
    (st.maxPages < st.nextPageId + overflowPagesNeeded st.pageSize size →
      allocOverflowTicker st size = .error .pageAllocationError) := by
  have hN1 : 1 ≤ overflowPagesNeeded st.pageSize size :=
    one_le_overflowPagesNeeded st.pageSize size
  constructor
  · intro hcap
    have hlt : st.nextPageId < st.maxPages := by omega
    have ha : allocPageId st =
        .ok (st.nextPageId, { st with nextPageId := st.nextPageId + 1 }) := by
      simp [allocPageId, hlt]
    obtain ⟨pids, hAP⟩ := allocPages_ok (overflowPagesNeeded st.pageSize size - 1)
      { st with
        nextPageId := st.nextPageId + 1
        overflowDataPages := st.overflowDataPages ++ [st.nextPageId] }
      (by simp; omega)
    have hread : pipelineReadPage
        { st with
          nextPageId := st.nextPageId + 1
          overflowDataPages := st.overflowDataPages ++ [st.nextPageId] }
        st.nextPageId =
        .ok (if st.nextPageId == 0 then ⟨0, .header st.headerMetaPid⟩
              else ⟨st.nextPageId, .blank⟩,
          { st with
            nextPageId := st.nextPageId + 1
            overflowDataPages := st.overflowDataPages ++ [st.nextPageId] }) := by
      by_cases h0 : st.nextPageId = 0
      · simp [pipelineReadPage, hio, h0]
      · have h0' : (st.nextPageId == 0) = false := by simp [h0]
        simp [pipelineReadPage, hio, h0', Nat.lt_succ_self]
    refine ⟨⟨[⟨st.nextPageId :: pids,
        overflowPagesNeeded st.pageSize size * st.pageSize⟩]⟩,
      { st with
        nextPageId := st.nextPageId + 1 + (overflowPagesNeeded st.pageSize size - 1)
        overflowDataPages := st.overflowDataPages ++ [st.nextPageId] },
      ?_, ?_, ?_⟩
    · simp only [allocOverflowTicker, ha]
      rw [hread]
      simp only [overflowAlloc, overflowPageCapacity]
      rw [hAP]
    · show size ≤ OverflowDataTicket.capacity _
      simp only [OverflowDataTicket.capacity, List.map, List.foldr, Nat.add_zero]
      exact size_le_pages_mul st.pageSize size hps
    · show st.nextPageId + 1 + (overflowPagesNeeded st.pageSize size - 1)
          = st.nextPageId + overflowPagesNeeded st.pageSize size
      omega
  · intro hover
    by_cases hlt : st.nextPageId < st.maxPages
    · have ha : allocPageId st =
          .ok (st.nextPageId, { st with nextPageId := st.nextPageId + 1 }) := by
        simp [allocPageId, hlt]
      have hread : pipelineReadPage
          { st with
            nextPageId := st.nextPageId + 1
            overflowDataPages := st.overflowDataPages ++ [st.nextPageId] }
          st.nextPageId =
          .ok (if st.nextPageId == 0 then ⟨0, .header st.headerMetaPid⟩
                else ⟨st.nextPageId, .blank⟩,
            { st with
              nextPageId := st.nextPageId + 1
              overflowDataPages := st.overflowDataPages ++ [st.nextPageId] }) := by
        by_cases h0 : st.nextPageId = 0
        · simp [pipelineReadPage, hio, h0]
        · have h0' : (st.nextPageId == 0) = false := by simp [h0]
          simp [pipelineReadPage, hio, h0', Nat.lt_succ_self]
      have herr := allocPages_err (overflowPagesNeeded st.pageSize size - 1)
        { st with
          nextPageId := st.nextPageId + 1
          overflowDataPages := st.overflowDataPages ++ [st.nextPageId] }
        (by omega)
        (by show st.maxPages < st.nextPageId + 1 + (overflowPagesNeeded st.pageSize size - 1)
            omega)
      simp only [allocOverflowTicker, ha]
      rw [hread]
      simp only [overflowAlloc, overflowPageCapacity]
      rw [herr]
    · have ha : allocPageId st = .error .pageAllocationError := by
        simp [allocPageId, hlt]
      simp only [allocOverflowTicker, ha]

/-- Witness for C6: allocating 10000 bytes of overflow storage on
`baseDb` succeeds with a ticket reserving at least 10000 bytes across
the three pages that size requires. -/
theorem alloc_overflow_ticket_spec_witness :
    ∃ t st', allocOverflowTicker baseDb 10000 = .ok (t, st') ∧
      10000 ≤ t.capacity ∧
      st'.nextPageId = baseDb.nextPageId + overflowPagesNeeded baseDb.pageSize 10000 :=
  (alloc_overflow_ticket_spec baseDb 10000 rfl (by decide)).1 (by decide)

/-! ### A closed-form characterization of `create_collection` -/

theorem collectionMetaDoc_fields (oid : Nat) (name : String) (rootPid : Nat) :
    collectionMetaDoc oid name rootPid =
      ⟨[("_id", .objectId oid), ("name", .string name),
        ("root_pid", .int (rootPid : Int)), ("flags", .int 0)]⟩ := rfl

theorem collectionMetaDoc_bkey (oid : Nat) (name : String) (rootPid : Nat) :
    (collectionMetaDoc oid name rootPid).bkey = .koid oid := rfl

theorem Document.bkey_eq_koid (d : Document) (n : Nat) :
    d.bkey = .koid n ↔ d.get "_id" = some (.objectId n) := by
  unfold Document.bkey
  cases hid : d.get "_id" with
  | none => simp
  | some v => cases v <;> simp [Value.toKey]

/-- The state after the pure prelude of `create_collection` (object id
generated, collection root page allocated). -/
def ccBase (st : Db) : Db :=
  { st with nextOid := st.nextOid + 1, nextPageId := st.nextPageId + 1 }

/-- The metadata document `create_collection` builds on state `st`. -/
def ccDoc (st : Db) (name : String) : Document :=
  collectionMetaDoc st.nextOid name st.nextPageId

/-- The meta-tree content after the metadata document is inserted. -/
def ccNewC (st : Db) (name : String) : List Document :=
  btreeSortedInsert (ccDoc st name) (st.getTree st.headerMetaPid)

/-- The final state of `create_collection` when the meta-tree insertion
returns no backward item. -/
def ccNoSplit (st : Db) (name : String) : Db :=
  (ccBase st).setTree st.headerMetaPid (ccNewC st name)

/-- The backward item of a meta-tree root split during
`create_collection`: the promoted median key and the sibling page the
B-tree wrapper allocates. -/
def ccBkw (st : Db) (name : String) : BackwardItem :=
  ⟨((ccNewC st name).getD ((ccNewC st name).length / 2) (ccDoc st name)).bkey,
    st.nextPageId + 1⟩

/-- The final state of `create_collection` when the meta-tree insertion
returns a backward item: both page allocations done, the header page and
the new root page staged through the journal pipeline, the header's
meta pointer moved to the new root. -/
def ccSplit (st : Db) (name : String) : Db :=
  Db.setTree
    { ccNoSplit st name with
        nextPageId := st.nextPageId + 3
        headerMetaPid := st.nextPageId + 2
        writeLog :=
          (⟨st.nextPageId + 2, .btreeRoot (ccBkw st name) st.headerMetaPid⟩ : RawPage)
            :: (⟨0, .header (st.nextPageId + 2)⟩ : RawPage) :: st.writeLog }
    (st.nextPageId + 2) (ccNewC st name)

theorem createCollection_eq (st : Db) (name : String) :
    createCollection st name =
      if st.nextPageId < st.maxPages then
        if st.ioFault then .error .ioError
        else if st.headerMetaPid = 0 then .error .metaPageIdError
        else if (st.getTree st.headerMetaPid).any
            (fun d => d.bkey == BKey.koid st.nextOid) then .error .duplicateKey
        else if (ccNewC st name).length > st.nodeCap then
          if st.nextPageId + 1 < st.maxPages then
            if st.nextPageId + 2 < st.maxPages then .ok (st.nextOid, ccSplit st name)
            else .error .pageAllocationError
          else .error .pageAllocationError
        else .ok (st.nextOid, ccNoSplit st name)
      else .error .pageAllocationError := by
  by_cases hA : st.nextPageId < st.maxPages
  · have ha : allocPageId { st with nextOid := st.nextOid + 1 } =
        .ok (st.nextPageId, ccBase st) := by
      simp [allocPageId, hA, ccBase]
    by_cases hio : st.ioFault
    · have hm : getMetaPageId (ccBase st) = .error .ioError := by
        simp [getMetaPageId, pipelineReadPage, ccBase, hio]
      simp only [createCollection, createCollectionToInsert, mkObjectId, ha, hm]
      simp [hA, hio]
    · by_cases h0 : st.headerMetaPid = 0
      · have hm : getMetaPageId (ccBase st) = .error .metaPageIdError := by
          simp [getMetaPageId, pipelineReadPage, ccBase, hio,
            headerPageUtilsGetMetaPageId, h0]
        simp only [createCollection, createCollectionToInsert, mkObjectId, ha, hm]
        simp [hA, hio, h0]
      · have hm : getMetaPageId (ccBase st) = .ok (st.headerMetaPid, ccBase st) := by
          simp [getMetaPageId, pipelineReadPage, ccBase, hio,
            headerPageUtilsGetMetaPageId, h0]
        have hcontent : (ccBase st).getTree st.headerMetaPid
            = st.getTree st.headerMetaPid := by
          simp [ccBase, Db.getTree]
        by_cases hdup : (st.getTree st.headerMetaPid).any
            (fun d => d.bkey == BKey.koid st.nextOid)
        · have hins : insertItem (ccBase st) st.headerMetaPid (collectionMetaDoc st.nextOid name st.nextPageId) false
              = .error .duplicateKey := by
            simp only [insertItem, hcontent, Bool.not_false, Bool.true_and]
            rw [show (collectionMetaDoc st.nextOid name st.nextPageId).bkey
                = BKey.koid st.nextOid from rfl]
            simp [hdup]
          simp only [createCollection, createCollectionToInsert, mkObjectId, ha, hm, hins]
          simp [hA, hio, h0, hdup]
        · by_cases hsp : (ccNewC st name).length > st.nodeCap
          · by_cases hB : st.nextPageId + 1 < st.maxPages
            · have hins : insertItem (ccBase st) st.headerMetaPid (collectionMetaDoc st.nextOid name st.nextPageId) false
                  = .ok (some (ccBkw st name),
                    { (ccBase st).setTree st.headerMetaPid (ccNewC st name) with
                        nextPageId := st.nextPageId + 2 }) := by
                simp only [insertItem, hcontent, Bool.not_false, Bool.true_and]
                rw [show (collectionMetaDoc st.nextOid name st.nextPageId).bkey
                = BKey.koid st.nextOid from rfl]
                simp only [hdup, Bool.false_eq_true, if_false, ite_false]
                rw [show btreeSortedInsert (collectionMetaDoc st.nextOid name st.nextPageId)
                  (st.getTree st.headerMetaPid) = ccNewC st name from rfl]
                have hgt : ((ccBase st).setTree st.headerMetaPid (ccNewC st name)).nodeCap
                    = st.nodeCap := rfl
                have halloc2 : allocPageId
                    ((ccBase st).setTree st.headerMetaPid (ccNewC st name)) =
                    .ok (st.nextPageId + 1,
                      { (ccBase st).setTree st.headerMetaPid (ccNewC st name) with
                          nextPageId := st.nextPageId + 2 }) := by
                  simp [allocPageId, Db.setTree, ccBase, hB]
                rw [show (ccBase st).nodeCap = st.nodeCap from rfl, if_pos hsp, halloc2]
                simp only [ccBkw, ccDoc]
              by_cases hC : st.nextPageId + 2 < st.maxPages
              · have halloc3 : allocPageId
                    { (ccBase st).setTree st.headerMetaPid (ccNewC st name) with
                        nextPageId := st.nextPageId + 2 } =
                    .ok (st.nextPageId + 2,
                      { (ccBase st).setTree st.headerMetaPid (ccNewC st name) with
                          nextPageId := st.nextPageId + 3 }) := by
                  simp [allocPageId, Db.setTree, ccBase, hC]
                have hwrite1 : pipelineReadPage
                    { (ccBase st).setTree st.headerMetaPid (ccNewC st name) with
                        nextPageId := st.nextPageId + 3 } 0 =
                    .ok (⟨0, .header st.headerMetaPid⟩,
                      { (ccBase st).setTree st.headerMetaPid (ccNewC st name) with
                          nextPageId := st.nextPageId + 3 }) := by
                  simp [pipelineReadPage, Db.setTree, ccBase, hio]
                simp only [createCollection, createCollectionToInsert, mkObjectId,
                  ha, hm, hins, halloc3, BackwardItem.writeToPage, hwrite1,
                  headerPageUtilsSetMetaPageId, pipelineWritePage]
                rw [if_pos hA, if_neg hio, if_neg h0]
                simp only [hdup, Bool.false_eq_true, if_false, ite_false]
                rw [if_pos hsp, if_pos hB, if_pos hC]
                simp [ccSplit, ccNoSplit, ccBase, Db.setTree, Db.getTree,
                  List.find?, hio]
              · have halloc3 : allocPageId
                    { (ccBase st).setTree st.headerMetaPid (ccNewC st name) with
                        nextPageId := st.nextPageId + 2 } = .error .pageAllocationError := by
                  simp [allocPageId, Db.setTree, ccBase, hC]
                simp only [createCollection, createCollectionToInsert, mkObjectId,
                  ha, hm, hins, halloc3]
                simp [hA, hio, h0, hdup, hsp, hB, hC]
            · have hins : insertItem (ccBase st) st.headerMetaPid (collectionMetaDoc st.nextOid name st.nextPageId) false
                  = .error .pageAllocationError := by
                simp only [insertItem, hcontent, Bool.not_false, Bool.true_and]
                rw [show (collectionMetaDoc st.nextOid name st.nextPageId).bkey
                = BKey.koid st.nextOid from rfl]
                simp only [hdup, Bool.false_eq_true, if_false, ite_false]
                rw [show btreeSortedInsert (collectionMetaDoc st.nextOid name st.nextPageId)
                  (st.getTree st.headerMetaPid) = ccNewC st name from rfl]
                have halloc2 : allocPageId
                    ((ccBase st).setTree st.headerMetaPid (ccNewC st name)) =
                    .error .pageAllocationError := by
                  simp [allocPageId, Db.setTree, ccBase, hB]
                rw [show (ccBase st).nodeCap = st.nodeCap from rfl, if_pos hsp, halloc2]
              simp only [createCollection, createCollectionToInsert, mkObjectId,
                ha, hm, hins]
              simp [hA, hio, h0, hdup, hsp, hB]
          · have hins : insertItem (ccBase st) st.headerMetaPid (collectionMetaDoc st.nextOid name st.nextPageId) false
                = .ok (none, (ccBase st).setTree st.headerMetaPid (ccNewC st name)) := by
              simp only [insertItem, hcontent, Bool.not_false, Bool.true_and]
              rw [show (collectionMetaDoc st.nextOid name st.nextPageId).bkey
                = BKey.koid st.nextOid from rfl]
              simp only [hdup, Bool.false_eq_true, if_false, ite_false]
              rw [show btreeSortedInsert (collectionMetaDoc st.nextOid name st.nextPageId)
                (st.getTree st.headerMetaPid) = ccNewC st name from rfl]
              rw [show (ccBase st).nodeCap = st.nodeCap from rfl, if_neg hsp]
            simp only [createCollection, createCollectionToInsert, mkObjectId,
              ha, hm, hins]
            simp [hA, hio, h0, hdup, hsp, ccNoSplit]
  · have ha : allocPageId { st with nextOid := st.nextOid + 1 } =
        .error .pageAllocationError := by
      simp [allocPageId, hA]
    simp only [createCollection, createCollectionToInsert, mkObjectId, ha]
    simp [hA]

/-! ### C1: the shape of `create_collection` -/

/-- C1: a successful `create_collection(name)` generates a fresh
ObjectId — the generator's next value, distinct from every id stored in
the meta-tree — builds a metadata document holding exactly the fields
`_id`, `name`, `root_pid` (the page freshly allocated from the Page
Handler), `flags` (0), in that insertion order, inserts it in key order
into the meta-tree whose root was read from the header page, and
returns that ObjectId. -/
theorem create_collection_correct (st : Db) (name : String) (oid : Nat) (st1 : Db)
    (h : createCollection st name = .ok (oid, st1))
    (hfresh : ∀ d ∈ st.getTree st.headerMetaPid, ∀ n,
      d.get "_id" = some (.objectId n) → n < st.nextOid) :
    oid = st.nextOid ∧
    st1.nextOid = st.nextOid + 1 ∧
    st.headerMetaPid ≠ 0 ∧
    (∀ d ∈ st.getTree st.headerMetaPid, d.get "_id" ≠ some (.objectId oid)) ∧
    collectionMetaDoc st.nextOid name st.nextPageId =
      ⟨[("_id", .objectId st.nextOid), ("name", .string name),
        ("root_pid", .int (st.nextPageId : Int)), ("flags", .int 0)]⟩ ∧
    st1.getTree st1.headerMetaPid =
      btreeSortedInsert (collectionMetaDoc st.nextOid name st.nextPageId)
        (st.getTree st.headerMetaPid) := by
  rw [createCollection_eq] at h
  split_ifs at h with hA hio h0 hdup hsp hB hC
  · -- root split fired
    simp only [Except.ok.injEq, Prod.mk.injEq] at h
    obtain ⟨hoid, hst⟩ := h
    subst hoid
    subst hst
    refine ⟨rfl, by simp [ccSplit, ccNoSplit, ccBase, Db.setTree], h0, ?_, rfl, ?_⟩
    · intro d hd hcon
      exact absurd (hfresh d hd st.nextOid hcon) (lt_irrefl _)
    · have hh : (ccSplit st name).headerMetaPid = st.nextPageId + 2 := by
        simp [ccSplit, Db.setTree]
      rw [hh]
      show (Db.setTree _ (st.nextPageId + 2) (ccNewC st name)).getTree (st.nextPageId + 2)
        = btreeSortedInsert (collectionMetaDoc st.nextOid name st.nextPageId)
            (st.getTree st.headerMetaPid)
      rw [Db.getTree_setTree_self]
      rfl
  · -- no split
    simp only [Except.ok.injEq, Prod.mk.injEq] at h
    obtain ⟨hoid, hst⟩ := h
    subst hoid
    subst hst
    refine ⟨rfl, by simp [ccNoSplit, ccBase, Db.setTree], h0, ?_, rfl, ?_⟩
    · intro d hd hcon
      exact absurd (hfresh d hd st.nextOid hcon) (lt_irrefl _)
    · have hh : (ccNoSplit st name).headerMetaPid = st.headerMetaPid := by
        simp [ccNoSplit, ccBase, Db.setTree]
      rw [hh]
      show ((ccBase st).setTree st.headerMetaPid (ccNewC st name)).getTree st.headerMetaPid
        = btreeSortedInsert (collectionMetaDoc st.nextOid name st.nextPageId)
            (st.getTree st.headerMetaPid)
      rw [Db.getTree_setTree_self]
      rfl

/-- The state after creating collection "test" on the fresh `baseDb`. -/
def baseAfterCreate : Db :=
  match createCollection baseDb "test" with
  | .ok (_, s) => s
  | .error _ => baseDb

/-- Witness for C1: the first collection created on a fresh database
gets ObjectId 0 and its metadata document lands in the meta-tree. -/
theorem create_collection_correct_witness :
    createCollection baseDb "test" = .ok (0, baseAfterCreate) ∧
    0 = baseDb.nextOid ∧
    baseAfterCreate.getTree baseAfterCreate.headerMetaPid =
      btreeSortedInsert (collectionMetaDoc baseDb.nextOid "test" baseDb.nextPageId)
        (baseDb.getTree baseDb.headerMetaPid) := by
  have hw := create_collection_correct baseDb "test" 0 baseAfterCreate rfl
    (fun d hd _ _ => absurd hd (by simp [baseDb, Db.getTree]))
  exact ⟨rfl, hw.1, hw.2.2.2.2.2⟩

/-! ### C4: root-split handling in `create_collection` -/

theorem createCollectionToInsert_eq (st : Db) (name : String) :
    createCollectionToInsert st name =
      if st.nextPageId < st.maxPages then
        if st.ioFault then .error .ioError
        else if st.headerMetaPid = 0 then .error .metaPageIdError
        else if (st.getTree st.headerMetaPid).any
            (fun d => d.bkey == BKey.koid st.nextOid) then .error .duplicateKey
        else if (ccNewC st name).length > st.nodeCap then
          if st.nextPageId + 1 < st.maxPages then
            .ok ((st.nextOid, st.headerMetaPid, some (ccBkw st name)),
              { ccNoSplit st name with nextPageId := st.nextPageId + 2 })
          else .error .pageAllocationError
        else .ok ((st.nextOid, st.headerMetaPid, none), ccNoSplit st name)
      else .error .pageAllocationError := by
  by_cases hA : st.nextPageId < st.maxPages
  · have ha : allocPageId { st with nextOid := st.nextOid + 1 } =
        .ok (st.nextPageId, ccBase st) := by
      simp [allocPageId, hA, ccBase]
    by_cases hio : st.ioFault
    · have hm : getMetaPageId (ccBase st) = .error .ioError := by
        simp [getMetaPageId, pipelineReadPage, ccBase, hio]
      simp only [createCollectionToInsert, mkObjectId, ha, hm]
      simp [hA, hio]
    · by_cases h0 : st.headerMetaPid = 0
      · have hm : getMetaPageId (ccBase st) = .error .metaPageIdError := by
          simp [getMetaPageId, pipelineReadPage, ccBase, hio,
            headerPageUtilsGetMetaPageId, h0]
        simp only [createCollectionToInsert, mkObjectId, ha, hm]
        simp [hA, hio, h0]
      · have hm : getMetaPageId (ccBase st) = .ok (st.headerMetaPid, ccBase st) := by
          simp [getMetaPageId, pipelineReadPage, ccBase, hio,
            headerPageUtilsGetMetaPageId, h0]
        have hcontent : (ccBase st).getTree st.headerMetaPid
            = st.getTree st.headerMetaPid := by
          simp [ccBase, Db.getTree]
        by_cases hdup : (st.getTree st.headerMetaPid).any
            (fun d => d.bkey == BKey.koid st.nextOid)
        · have hins : insertItem (ccBase st) st.headerMetaPid
              (collectionMetaDoc st.nextOid name st.nextPageId) false
              = .error .duplicateKey := by
            simp only [insertItem, hcontent, Bool.not_false, Bool.true_and]
            rw [show (collectionMetaDoc st.nextOid name st.nextPageId).bkey
                = BKey.koid st.nextOid from rfl]
            simp [hdup]
          simp only [createCollectionToInsert, mkObjectId, ha, hm, hins]
          simp [hA, hio, h0, hdup]
        · by_cases hsp : (ccNewC st name).length > st.nodeCap
          · by_cases hB : st.nextPageId + 1 < st.maxPages
            · have hins : insertItem (ccBase st) st.headerMetaPid
                  (collectionMetaDoc st.nextOid name st.nextPageId) false
                  = .ok (some (ccBkw st name),
                    { (ccBase st).setTree st.headerMetaPid (ccNewC st name) with
                        nextPageId := st.nextPageId + 2 }) := by
                simp only [insertItem, hcontent, Bool.not_false, Bool.true_and]
                rw [show (collectionMetaDoc st.nextOid name st.nextPageId).bkey
                    = BKey.koid st.nextOid from rfl]
                simp only [hdup, Bool.false_eq_true, if_false, ite_false]
                rw [show btreeSortedInsert (collectionMetaDoc st.nextOid name st.nextPageId)
                  (st.getTree st.headerMetaPid) = ccNewC st name from rfl]
                have halloc2 : allocPageId
                    ((ccBase st).setTree st.headerMetaPid (ccNewC st name)) =
                    .ok (st.nextPageId + 1,
                      { (ccBase st).setTree st.headerMetaPid (ccNewC st name) with
                          nextPageId := st.nextPageId + 2 }) := by
                  simp [allocPageId, Db.setTree, ccBase, hB]
                rw [show (ccBase st).nodeCap = st.nodeCap from rfl, if_pos hsp, halloc2]
                simp only [ccBkw, ccDoc]
              simp only [createCollectionToInsert, mkObjectId, ha, hm, hins]
              rw [if_pos hA, if_neg hio, if_neg h0]
              simp only [hdup, Bool.false_eq_true, if_false, ite_false]
              rw [if_pos hsp, if_pos hB]
              simp [ccNoSplit, ccBase, Db.setTree]
            · have hins : insertItem (ccBase st) st.headerMetaPid
                  (collectionMetaDoc st.nextOid name st.nextPageId) false
                  = .error .pageAllocationError := by
                simp only [insertItem, hcontent, Bool.not_false, Bool.true_and]
                rw [show (collectionMetaDoc st.nextOid name st.nextPageId).bkey
                    = BKey.koid st.nextOid from rfl]
                simp only [hdup, Bool.false_eq_true, if_false, ite_false]
                rw [show btreeSortedInsert (collectionMetaDoc st.nextOid name st.nextPageId)
                  (st.getTree st.headerMetaPid) = ccNewC st name from rfl]
                have halloc2 : allocPageId
                    ((ccBase st).setTree st.headerMetaPid (ccNewC st name)) =
                    .error .pageAllocationError := by
                  simp [allocPageId, Db.setTree, ccBase, hB]
                rw [show (ccBase st).nodeCap = st.nodeCap from rfl, if_pos hsp, halloc2]
              simp only [createCollectionToInsert, mkObjectId, ha, hm, hins]
              simp [hA, hio, h0, hdup, hsp, hB]
          · have hins : insertItem (ccBase st) st.headerMetaPid
                (collectionMetaDoc st.nextOid name st.nextPageId) false
                = .ok (none, (ccBase st).setTree st.headerMetaPid (ccNewC st name)) := by
              simp only [insertItem, hcontent, Bool.not_false, Bool.true_and]
              rw [show (collectionMetaDoc st.nextOid name st.nextPageId).bkey
                  = BKey.koid st.nextOid from rfl]
              simp only [hdup, Bool.false_eq_true, if_false, ite_false]
              rw [show btreeSortedInsert (collectionMetaDoc st.nextOid name st.nextPageId)
                (st.getTree st.headerMetaPid) = ccNewC st name from rfl]
              rw [show (ccBase st).nodeCap = st.nodeCap from rfl, if_neg hsp]
            simp only [createCollectionToInsert, mkObjectId, ha, hm, hins]
            simp [hA, hio, h0, hdup, hsp, ccNoSplit]
  · have ha : allocPageId { st with nextOid := st.nextOid + 1 } =
        .error .pageAllocationError := by
      simp [allocPageId, hA]
    simp only [createCollectionToInsert, mkObjectId, ha]
    simp [hA]

/-- C4: within a successful `create_collection`, whenever the meta-tree
insertion returns a backward item (root split), a new root page id is
allocated from the Page Handler, the backward item is written to that
page with the old meta-tree root as its existing child, the header
page's meta pointer is updated to the new page id, and both pages go
through the journal pipeline (the write log gains exactly the header
page and the new root page); with no backward item the state — header
meta pointer and write log included — is exactly the insertion's
output. -/
theorem create_collection_root_split (st : Db) (name : String) (oid : Nat) (st1 : Db)
    (h : createCollection st name = .ok (oid, st1)) :
    ∀ backward stMid,
      createCollectionToInsert st name = .ok ((oid, st.headerMetaPid, backward), stMid) →
      (∀ b, backward = some b →
        ∃ newRootId stAlloc, allocPageId stMid = .ok (newRootId, stAlloc) ∧
          st1.headerMetaPid = newRootId ∧
          st1.writeLog = (⟨newRootId, .btreeRoot b st.headerMetaPid⟩ : RawPage)
            :: (⟨0, .header newRootId⟩ : RawPage) :: stMid.writeLog ∧
          st1.getTree newRootId = stMid.getTree st.headerMetaPid) ∧
      (backward = none → st1 = stMid ∧ st1.headerMetaPid = st.headerMetaPid
        ∧ st1.writeLog = stMid.writeLog) := by
  intro backward stMid hrun
  rw [createCollection_eq] at h
  rw [createCollectionToInsert_eq] at hrun
  split_ifs at h hrun with hA hio h0 hdup hsp hB hC
  · -- split branch of the run
    simp only [Except.ok.injEq, Prod.mk.injEq] at h hrun
    obtain ⟨hoid, hst⟩ := h
    obtain ⟨⟨_, _, hback⟩, hmid⟩ := hrun
    subst hst
    constructor
    · intro b hb
      rw [← hback] at hb
      have hb' : b = ccBkw st name := by
        cases hb
        rfl
      subst hb'
      refine ⟨st.nextPageId + 2,
        { ccNoSplit st name with nextPageId := st.nextPageId + 3 }, ?_, ?_, ?_, ?_⟩
      · rw [← hmid]
        simp [allocPageId, ccNoSplit, ccBase, Db.setTree, hC]
      · simp [ccSplit, Db.setTree]
      · rw [← hmid]
        simp [ccSplit, ccNoSplit, ccBase, Db.setTree]
      · rw [← hmid]
        have hgl : (ccSplit st name).getTree (st.nextPageId + 2) = ccNewC st name := by
          show (Db.setTree _ (st.nextPageId + 2) (ccNewC st name)).getTree
            (st.nextPageId + 2) = ccNewC st name
          exact Db.getTree_setTree_self _ _ _
        rw [hgl]
        show ccNewC st name =
          ({ ccNoSplit st name with nextPageId := st.nextPageId + 2 }).getTree
            st.headerMetaPid
        show ccNewC st name =
          ((ccBase st).setTree st.headerMetaPid (ccNewC st name)).getTree st.headerMetaPid
        rw [Db.getTree_setTree_self]
    · intro hnone
      rw [← hback] at hnone
      cases hnone
  · -- no-split branch of the run
    simp only [Except.ok.injEq, Prod.mk.injEq] at h hrun
    obtain ⟨hoid, hst⟩ := h
    obtain ⟨⟨_, _, hback⟩, hmid⟩ := hrun
    subst hst
    constructor
    · intro b hb
      rw [← hback] at hb
      cases hb
    · intro _
      refine ⟨hmid, ?_, ?_⟩
      · simp [ccNoSplit, ccBase, Db.setTree]
      · rw [← hmid]

/-- A database whose meta-tree (root page 1) already holds one entry and
whose node capacity is 1, so that the next `create_collection` splits
the meta-tree root. -/
def splitDb : Db :=
  { baseDb with
      nodeCap := 1
      trees := [(1, [collectionMetaDoc 50 "old" 7])]
      nextOid := 60 }

/-- The state after `create_collection "test"` on `splitDb`. -/
def splitAfter : Db :=
  match createCollection splitDb "test" with
  | .ok (_, s) => s
  | .error _ => splitDb

/-- The state after the meta-tree insertion step on `splitDb`. -/
def splitMid : Db :=
  match createCollectionToInsert splitDb "test" with
  | .ok (_, s) => s
  | .error _ => splitDb

/-- Witness for C4 on a concrete root split: the new root page id is
allocated, the header points at it, both pages are in the write log, and
the new root carries the meta-tree content. -/
theorem create_collection_root_split_witness :
    ∃ newRootId stAlloc, allocPageId splitMid = .ok (newRootId, stAlloc) ∧
      splitAfter.headerMetaPid = newRootId ∧
      splitAfter.writeLog =
        (⟨newRootId, .btreeRoot (ccBkw splitDb "test") splitDb.headerMetaPid⟩ : RawPage)
          :: (⟨0, .header newRootId⟩ : RawPage) :: splitMid.writeLog ∧
      splitAfter.getTree newRootId = splitMid.getTree splitDb.headerMetaPid :=
  ((create_collection_root_split splitDb "test" 60 splitAfter rfl
      (some (ccBkw splitDb "test")) splitMid rfl).1 (ccBkw splitDb "test") rfl)

/-! ### C9: no uniqueness check on collection names -/

/-- Constructive characterization of a successful `create_collection`
from any healthy state with three pages of allocator headroom. -/
theorem createCollection_ok_char (st : Db) (name : String)
    (hio : st.ioFault = false) (h0 : st.headerMetaPid ≠ 0)
    (hA3 : st.nextPageId + 3 ≤ st.maxPages)
    (hdup : (st.getTree st.headerMetaPid).any
      (fun d => d.bkey == BKey.koid st.nextOid) = false) :
    ∃ st1, createCollection st name = .ok (st.nextOid, st1) ∧
      st1.ioFault = false ∧
      st1.headerMetaPid ≠ 0 ∧
      st1.maxPages = st.maxPages ∧
      st.nextPageId + 1 ≤ st1.nextPageId ∧ st1.nextPageId ≤ st.nextPageId + 3 ∧
      st1.nextOid = st.nextOid + 1 ∧
      st1.getTree st1.headerMetaPid
        = btreeSortedInsert (collectionMetaDoc st.nextOid name st.nextPageId)
            (st.getTree st.headerMetaPid) := by
  rw [createCollection_eq]
  rw [if_pos (by omega : st.nextPageId < st.maxPages), if_neg (by simp [hio]),
    if_neg h0]
  simp only [hdup, Bool.false_eq_true, if_false, ite_false]
  by_cases hsp : (ccNewC st name).length > st.nodeCap
  · rw [if_pos hsp, if_pos (by omega : st.nextPageId + 1 < st.maxPages),
      if_pos (by omega : st.nextPageId + 2 < st.maxPages)]
    refine ⟨ccSplit st name, rfl, ?_, ?_, ?_, ?_, ?_, ?_, ?_⟩
    · simp [ccSplit, ccNoSplit, ccBase, Db.setTree, hio]
    · simp [ccSplit, Db.setTree]
    · simp [ccSplit, ccNoSplit, ccBase, Db.setTree]
    · simp [ccSplit, ccNoSplit, ccBase, Db.setTree]
    · simp [ccSplit, ccNoSplit, ccBase, Db.setTree]
    · simp [ccSplit, ccNoSplit, ccBase, Db.setTree]
    · have hh : (ccSplit st name).headerMetaPid = st.nextPageId + 2 := by
        simp [ccSplit, Db.setTree]
      rw [hh]
      show (Db.setTree _ (st.nextPageId + 2) (ccNewC st name)).getTree (st.nextPageId + 2)
        = btreeSortedInsert (collectionMetaDoc st.nextOid name st.nextPageId)
            (st.getTree st.headerMetaPid)
      rw [Db.getTree_setTree_self]
      rfl
  · rw [if_neg hsp]
    refine ⟨ccNoSplit st name, rfl, ?_, ?_, ?_, ?_, ?_, ?_, ?_⟩
    · simp [ccNoSplit, ccBase, Db.setTree, hio]
    · simp [ccNoSplit, ccBase, Db.setTree, h0]
    · simp [ccNoSplit, ccBase, Db.setTree]
    · simp [ccNoSplit, ccBase, Db.setTree]
    · simp [ccNoSplit, ccBase, Db.setTree]
    · simp [ccNoSplit, ccBase, Db.setTree]
    · have hh : (ccNoSplit st name).headerMetaPid = st.headerMetaPid := by
        simp [ccNoSplit, ccBase, Db.setTree]
      rw [hh]
      show ((ccBase st).setTree st.headerMetaPid (ccNewC st name)).getTree st.headerMetaPid
        = btreeSortedInsert (collectionMetaDoc st.nextOid name st.nextPageId)
            (st.getTree st.headerMetaPid)
      rw [Db.getTree_setTree_self]
      rfl

/-- Whether a metadata document carries the given collection name. -/
def hasColName (name : String) (d : Document) : Bool :=
  match d.get "name" with
  | some (.string s) => s == name
  | _ => false

/-- Number of metadata entries carrying the given collection name. -/
def countName (docs : List Document) (name : String) : Nat :=
  (docs.filter (hasColName name)).length

theorem countName_btreeSortedInsert (d : Document) (docs : List Document)
    (name : String) :
    countName (btreeSortedInsert d docs) name
      = countName docs name + (if hasColName name d then 1 else 0) := by
  unfold countName
  induction docs with
  | nil =>
    cases hd : hasColName name d <;> simp [btreeSortedInsert, List.filter, hd]
  | cons x xs ih =>
    cases hlt : BKey.blt d.bkey x.bkey with
    | true =>
      simp only [btreeSortedInsert, hlt, if_true]
      rw [List.filter_cons, List.filter_cons]
      cases hd : hasColName name d <;> cases hx : hasColName name x <;>
        simp [hd, hx, List.filter_cons]
    | false =>
      simp only [btreeSortedInsert, hlt, Bool.false_eq_true, if_false]
      rw [List.filter_cons, List.filter_cons]
      cases hx : hasColName name x <;> simp [hx, ih] <;> omega

theorem hasColName_collectionMetaDoc (name : String) (oid rootPid : Nat) :
    hasColName name (collectionMetaDoc oid name rootPid) = true := by
  simp [hasColName, collectionMetaDoc_fields, Document.get, List.find?]

/-- C9: two successive `create_collection` calls with the same name both
succeed — no uniqueness check on the `name` field is performed — and the
meta-tree ends up with two more entries carrying that name, keyed by the
two distinct generated ObjectIds. -/
theorem create_collection_no_name_uniqueness (st : Db) (name : String)
    (hio : st.ioFault = false) (h0 : st.headerMetaPid ≠ 0)
    (halloc : st.nextPageId + 6 ≤ st.maxPages)
    (hfresh : ∀ d ∈ st.getTree st.headerMetaPid, ∀ n,
      d.get "_id" = some (.objectId n) → n < st.nextOid) :
    ∃ st1 st2, createCollection st name = .ok (st.nextOid, st1) ∧
      createCollection st1 name = .ok (st.nextOid + 1, st2) ∧
      st.nextOid ≠ st.nextOid + 1 ∧
      (∃ rootPid2,
        st2.getTree st2.headerMetaPid
          = btreeSortedInsert (collectionMetaDoc (st.nextOid + 1) name rootPid2)
              (btreeSortedInsert (collectionMetaDoc st.nextOid name st.nextPageId)
                (st.getTree st.headerMetaPid))) ∧
      countName (st2.getTree st2.headerMetaPid) name
        = countName (st.getTree st.headerMetaPid) name + 2 := by
  have hdup1 : (st.getTree st.headerMetaPid).any
      (fun d => d.bkey == BKey.koid st.nextOid) = false := by
    rw [List.any_eq_false]
    intro d hd hk
    exact absurd
      (hfresh d hd st.nextOid ((Document.bkey_eq_koid d st.nextOid).1 (eq_of_beq hk)))
      (lt_irrefl _)
  obtain ⟨st1, h1, hio1, h01, hmax1, hlo1, hhi1, hoid1, htree1⟩ :=
    createCollection_ok_char st name hio h0 (by omega) hdup1
  have hdup2 : (st1.getTree st1.headerMetaPid).any
      (fun d => d.bkey == BKey.koid st1.nextOid) = false := by
    rw [List.any_eq_false]
    intro d hd hk
    rw [htree1] at hd
    rw [hoid1] at hk
    have hk' := (Document.bkey_eq_koid d (st.nextOid + 1)).1 (eq_of_beq hk)
    rcases (mem_btreeSortedInsert _ d _).1 hd with hd1 | hd2
    · rw [hd1, collectionMetaDoc_fields] at hk'
      simp [Document.get, List.find?] at hk'
    · exact absurd (hfresh d hd2 (st.nextOid + 1) hk') (by omega)
  obtain ⟨st2, h2, _, _, _, _, _, _, htree2⟩ :=
    createCollection_ok_char st1 name hio1 h01 (by omega) hdup2
  rw [hoid1] at h2
  refine ⟨st1, st2, h1, h2, by omega, ⟨st1.nextPageId, ?_⟩, ?_⟩
  · rw [htree2, hoid1, htree1]
  · rw [htree2, hoid1, htree1, countName_btreeSortedInsert, countName_btreeSortedInsert,
      hasColName_collectionMetaDoc, hasColName_collectionMetaDoc]
    simp

/-! ### C3: the document persisted by `insert` -/

theorem Document.get_none_any_false (d : Document) (k : String)
    (h : d.get k = none) : d.fields.any (fun p => p.1 == k) = false := by
  unfold Document.get at h
  rw [Option.map_eq_none'] at h
  rw [List.find?_eq_none] at h
  rw [List.any_eq_false]
  exact h

theorem Document.insert_of_get_none (d : Document) (k : String) (v : Value)
    (h : d.get k = none) : d.insert k v = ⟨d.fields ++ [(k, v)]⟩ := by
  unfold Document.insert
  rw [Document.get_none_any_false d k h]
  simp

/-- The final state of the modelled `Cursor::insert` when the insertion
splits the collection tree's root: the sibling and new root pages
allocated, the new root staged through the pipeline holding the tree's
content, and the matching metadata entries' `root_pid` repointed at the
new root. -/
def ciSplit (st : Db) (metaPid : Nat) (col : String) (doc : Document) (pid : Int) : Db :=
  let rpid := pid.toNat % 2 ^ 32
  let newC := btreeSortedInsert doc (st.getTree rpid)
  let b : BackwardItem := ⟨(newC.getD (newC.length / 2) doc).bkey, st.nextPageId⟩
  let st3 := Db.setTree
    { st.setTree rpid newC with
        nextPageId := st.nextPageId + 2
        writeLog := (⟨st.nextPageId + 1, .btreeRoot b rpid⟩ : RawPage) :: st.writeLog }
    (st.nextPageId + 1) newC
  st3.setTree metaPid ((st3.getTree metaPid).map (fun d =>
    match d.get "name" with
    | some (.string s) =>
      if s == col then d.insert "root_pid" (.int ((st.nextPageId + 1 : Nat) : Int)) else d
    | _ => d))

theorem cursorInsert_eq (st : Db) (metaPid : Nat) (col : String) (doc : Document)
    (hio : st.ioFault = false) :
    cursorInsert st metaPid col doc =
      match getCollectionCursorLoop (st.getTree metaPid) col with
      | .error e => .error e
      | .ok pid =>
        if (st.getTree (pid.toNat % 2 ^ 32)).any (fun d => d.bkey == doc.bkey) then
          .error .duplicateKey
        else if (btreeSortedInsert doc (st.getTree (pid.toNat % 2 ^ 32))).length
            > st.nodeCap then
          if st.nextPageId < st.maxPages then
            if st.nextPageId + 1 < st.maxPages then
              .ok ((), ciSplit st metaPid col doc pid)
            else .error .pageAllocationError
          else .error .pageAllocationError
        else .ok ((), st.setTree (pid.toNat % 2 ^ 32)
            (btreeSortedInsert doc (st.getTree (pid.toNat % 2 ^ 32)))) := by
  cases hloop : getCollectionCursorLoop (st.getTree metaPid) col with
  | error e => simp only [cursorInsert, hloop]
  | ok pid =>
    by_cases hdup : ((st.getTree (pid.toNat % 2 ^ 32)).any
        (fun d => d.bkey == doc.bkey)) = true
    · have hins : insertItem st (pid.toNat % 2 ^ 32) doc false
          = .error .duplicateKey := by
        simp only [insertItem, Bool.not_false, Bool.true_and]
        rw [if_pos hdup]
      simp only [cursorInsert, hloop, hins]
      rw [if_pos hdup]
    · by_cases hsp : (btreeSortedInsert doc (st.getTree (pid.toNat % 2 ^ 32))).length
          > st.nodeCap
      · by_cases hB : st.nextPageId < st.maxPages
        · have hins : insertItem st (pid.toNat % 2 ^ 32) doc false
              = .ok (some ⟨((btreeSortedInsert doc
                    (st.getTree (pid.toNat % 2 ^ 32))).getD
                    ((btreeSortedInsert doc (st.getTree (pid.toNat % 2 ^ 32))).length / 2)
                    doc).bkey, st.nextPageId⟩,
                { st.setTree (pid.toNat % 2 ^ 32)
                    (btreeSortedInsert doc (st.getTree (pid.toNat % 2 ^ 32))) with
                    nextPageId := st.nextPageId + 1 }) := by
            simp only [insertItem, Bool.not_false, Bool.true_and]
            rw [if_neg hdup]
            rw [if_pos hsp]
            have halloc : allocPageId (st.setTree (pid.toNat % 2 ^ 32)
                (btreeSortedInsert doc (st.getTree (pid.toNat % 2 ^ 32)))) =
                .ok (st.nextPageId,
                  { st.setTree (pid.toNat % 2 ^ 32)
                      (btreeSortedInsert doc (st.getTree (pid.toNat % 2 ^ 32))) with
                      nextPageId := st.nextPageId + 1 }) := by
              simp [allocPageId, Db.setTree, hB]
            rw [halloc]
          by_cases hC : st.nextPageId + 1 < st.maxPages
          · have halloc2 : allocPageId
                { st.setTree (pid.toNat % 2 ^ 32)
                    (btreeSortedInsert doc (st.getTree (pid.toNat % 2 ^ 32))) with
                    nextPageId := st.nextPageId + 1 } =
                .ok (st.nextPageId + 1,
                  { st.setTree (pid.toNat % 2 ^ 32)
                      (btreeSortedInsert doc (st.getTree (pid.toNat % 2 ^ 32))) with
                      nextPageId := st.nextPageId + 2 }) := by
              simp [allocPageId, Db.setTree, hC]
            simp only [cursorInsert, hloop, hins, halloc2, BackwardItem.writeToPage,
              pipelineWritePage]
            rw [if_neg (show ¬ (st.setTree (pid.toNat % 2 ^ 32)
                (btreeSortedInsert doc (st.getTree (pid.toNat % 2 ^ 32)))).ioFault = true
              by simp [Db.setTree, hio])]
            rw [if_neg hdup, if_pos hsp, if_pos hB, if_pos hC]
            simp [ciSplit, Db.setTree, Db.getTree, List.find?]
          · have halloc2 : allocPageId
                { st.setTree (pid.toNat % 2 ^ 32)
                    (btreeSortedInsert doc (st.getTree (pid.toNat % 2 ^ 32))) with
                    nextPageId := st.nextPageId + 1 } = .error .pageAllocationError := by
              simp [allocPageId, Db.setTree, hC]
            simp only [cursorInsert, hloop, hins, halloc2]
            rw [if_neg hdup, if_pos hsp, if_pos hB, if_neg hC]
        · have hins : insertItem st (pid.toNat % 2 ^ 32) doc false
              = .error .pageAllocationError := by
            simp only [insertItem, Bool.not_false, Bool.true_and]
            rw [if_neg hdup]
            rw [if_pos hsp]
            have halloc : allocPageId (st.setTree (pid.toNat % 2 ^ 32)
                (btreeSortedInsert doc (st.getTree (pid.toNat % 2 ^ 32)))) =
                .error .pageAllocationError := by
              simp [allocPageId, Db.setTree, hB]
            rw [halloc]
          simp only [cursorInsert, hloop, hins]
          rw [if_neg hdup, if_pos hsp, if_neg hB]
      · have hins : insertItem st (pid.toNat % 2 ^ 32) doc false
            = .ok (none, st.setTree (pid.toNat % 2 ^ 32)
                (btreeSortedInsert doc (st.getTree (pid.toNat % 2 ^ 32)))) := by
          simp only [insertItem, Bool.not_false, Bool.true_and]
          rw [if_neg hdup]
          rw [if_neg hsp]
        simp only [cursorInsert, hloop, hins]
        rw [if_neg hdup, if_neg hsp]

/-- C3: for every document passed to `insert`: with no `_id` field, the
document handed to the persistence path is the document extended (at the
end, original fields untouched) with an `_id` holding the freshly
generated, previously-unseen ObjectId; with an `_id` already present,
the document is passed on exactly as given.  In either case, on success
the resolved collection tree's content is the old content with exactly
that prepared document key-inserted. -/
theorem ciSplit_getTree_newRoot (st : Db) (metaPid : Nat) (col : String)
    (doc : Document) (pid : Int) (hne : st.nextPageId + 1 ≠ metaPid) :
    (ciSplit st metaPid col doc pid).getTree (st.nextPageId + 1)
      = btreeSortedInsert doc (st.getTree (pid.toNat % 2 ^ 32)) := by
  simp only [ciSplit]
  rw [Db.getTree_setTree_ne _ _ _ _ hne]
  rw [Db.getTree_setTree_self]

theorem insert_prepared_document (st : Db) (col : String) (doc : Document)
    (st1 : Db) (h : insertDoc st col doc = .ok ((), st1))
    (hmp : st.headerMetaPid ≤ st.nextPageId)
    (hfresh : ∀ p, ∀ d ∈ st.getTree p, ∀ n,
      d.get "_id" = some (.objectId n) → n < st.nextOid) :
    (doc.get "_id" = none →
      (insertPrepare st doc).1 = ⟨doc.fields ++ [("_id", .objectId st.nextOid)]⟩ ∧
      ∀ p, ∀ d ∈ st.getTree p, d.get "_id" ≠ some (.objectId st.nextOid)) ∧
    (∀ v, doc.get "_id" = some v → (insertPrepare st doc).1 = doc) ∧
    ∃ pid r1, getCollectionCursorLoop (st.getTree st.headerMetaPid) col = .ok pid ∧
      st1.getTree r1 =
        btreeSortedInsert (insertPrepare st doc).1 (st.getTree (pid.toNat % 2 ^ 32)) := by
  refine ⟨?_, ?_, ?_⟩
  · intro hid
    refine ⟨?_, ?_⟩
    · simp only [insertPrepare, hid, mkObjectId]
      exact Document.insert_of_get_none doc "_id" _ hid
    · intro p d hd hcon
      exact absurd (hfresh p d hd st.nextOid hcon) (lt_irrefl _)
  · intro v hv
    simp [insertPrepare, hv]
  · by_cases hio : st.ioFault
    · have hmErr : getMetaPageId st = .error .ioError := by
        simp [getMetaPageId, pipelineReadPage, hio]
      rw [show insertDoc st col doc = .error .ioError by simp [insertDoc, hmErr]] at h
      cases h
    · by_cases h0 : st.headerMetaPid = 0
      · have hmErr : getMetaPageId st = .error .metaPageIdError := by
          simp [getMetaPageId, pipelineReadPage, hio, headerPageUtilsGetMetaPageId, h0]
        rw [show insertDoc st col doc = .error .metaPageIdError
          by simp [insertDoc, hmErr]] at h
        cases h
      · have hm : getMetaPageId st = .ok (st.headerMetaPid, st) := by
          simp [getMetaPageId, pipelineReadPage, hio, headerPageUtilsGetMetaPageId, h0]
        have hio2 : ((insertPrepare st doc).2).ioFault = false := by
          unfold insertPrepare mkObjectId
          cases hid : doc.get "_id" <;> simp [hio]
        have hrw : insertDoc st col doc =
            cursorInsert (insertPrepare st doc).2 st.headerMetaPid col
              (insertPrepare st doc).1 := by
          simp only [insertDoc, hm]
        rw [hrw, cursorInsert_eq _ _ _ _ hio2] at h
        have htrees : ∀ p, ((insertPrepare st doc).2).getTree p = st.getTree p := by
          intro p
          unfold insertPrepare mkObjectId
          cases hid : doc.get "_id" <;> simp [Db.getTree]
        have hnp : ((insertPrepare st doc).2).nextPageId = st.nextPageId := by
          unfold insertPrepare mkObjectId
          cases hid : doc.get "_id" <;> simp
        rw [htrees] at h
        cases hloop : getCollectionCursorLoop (st.getTree st.headerMetaPid) col with
        | error e =>
          simp only [hloop] at h
          exact absurd h (by simp)
        | ok pid =>
          simp only [hloop, htrees] at h
          split_ifs at h with hdup hsp hB hC
          · -- root split in the collection tree
            simp only [Except.ok.injEq, Prod.mk.injEq, true_and] at h
            refine ⟨pid, st.nextPageId + 1, rfl, ?_⟩
            have hne : ((insertPrepare st doc).2).nextPageId + 1 ≠ st.headerMetaPid := by
              rw [hnp]
              omega
            have hgl := ciSplit_getTree_newRoot (insertPrepare st doc).2
              st.headerMetaPid col (insertPrepare st doc).1 pid hne
            rw [hnp, htrees] at hgl
            rw [← h]
            exact hgl
          · -- no split
            simp only [Except.ok.injEq, Prod.mk.injEq, true_and] at h
            refine ⟨pid, pid.toNat % 2 ^ 32, rfl, ?_⟩
            rw [← h, Db.getTree_setTree_self]

/-- Witness for C3 at a concrete insertion without `_id` into `colDb`:
the persisted document is the original extended with the generated
ObjectId 60, landing in the collection tree. -/
theorem insert_prepared_document_witness :
    insertDoc colDb "test" ⟨[("content", .string "x")]⟩ = .ok ((), colDbAfterInsert) ∧
    (insertPrepare colDb ⟨[("content", .string "x")]⟩).1
      = ⟨[("content", .string "x"), ("_id", .objectId 60)]⟩ ∧
    ∃ pid r1,
      getCollectionCursorLoop (colDb.getTree colDb.headerMetaPid) "test" = .ok pid ∧
      colDbAfterInsert.getTree r1 =
        btreeSortedInsert (insertPrepare colDb ⟨[("content", .string "x")]⟩).1
          (colDb.getTree (pid.toNat % 2 ^ 32)) := by
  have hfr : ∀ p, ∀ d ∈ colDb.getTree p, ∀ n,
      d.get "_id" = some (.objectId n) → n < colDb.nextOid := by
    intro p d hd n hid
    by_cases hp : p = 1
    · subst hp
      simp [colDb, baseDb, Db.getTree, List.find?] at hd
      subst hd
      rw [collectionMetaDoc_fields] at hid
      simp [Document.get, List.find?] at hid
      show n < 60
      omega
    · have hp' : ((1 : Nat) == p) = false := by simp [Ne.symm hp]
      simp [colDb, baseDb, Db.getTree, List.find?, hp'] at hd
  have hw := insert_prepared_document colDb "test" ⟨[("content", .string "x")]⟩
    colDbAfterInsert rfl (by decide) hfr
  refine ⟨rfl, ?_, hw.2.2⟩
  rw [(hw.1 rfl).1]
  rfl

/-- Witness for C9: creating "test" twice on a fresh database yields two
distinct meta entries named "test". -/
theorem create_collection_no_name_uniqueness_witness :
    ∃ st1 st2, createCollection baseDb "test" = .ok (baseDb.nextOid, st1) ∧
      createCollection st1 "test" = .ok (baseDb.nextOid + 1, st2) ∧
      baseDb.nextOid ≠ baseDb.nextOid + 1 ∧
      (∃ rootPid2,
        st2.getTree st2.headerMetaPid
          = btreeSortedInsert (collectionMetaDoc (baseDb.nextOid + 1) "test" rootPid2)
              (btreeSortedInsert
                (collectionMetaDoc baseDb.nextOid "test" baseDb.nextPageId)
                (baseDb.getTree baseDb.headerMetaPid))) ∧
      countName (st2.getTree st2.headerMetaPid) "test"
        = countName (baseDb.getTree baseDb.headerMetaPid) "test" + 2 :=
  create_collection_no_name_uniqueness baseDb "test" rfl (by decide) (by decide)
    (fun d hd _ _ => absurd hd (by simp [baseDb, Db.getTree]))

end PoloDb

